import Mathlib

/-!
Verification of the wgpu-core transfer and queue-submission subsystem.

This file gives a shallow embedding of `wgpu-core/src/command/transfer.rs` and
`wgpu-core/src/device/queue.rs` into Lean, together with theorems about the
geometry validators, the transfer-encoder operations, the write-texture staging
layout, the memory-initialization normalization pass and the arithmetic helpers.

Machine integers (`u32`, `u64`/`BufferAddress`) are modelled as `Nat`; the code
converts every copy quantity to 64-bit before arithmetic precisely to avoid
overflow, so plain `Nat` arithmetic coincides with the source on its intended
domain.  Fallible code returns `Except`/`Option`; a `none` from a helper models
a Rust panic (failed `assert!` or division by zero).  Collaborator modules of
the repository that are not part of the embedded sources (`wgt`, `conv`,
`track`, `memory_init_tracker`, `hal`) are modelled from the specification and
are marked as such in their doc comments.
-/

deriving instance DecidableEq for Except

namespace Wgpu

/-- transfer.rs `CopySide`: which side of a transfer a buffer/texture is on. -/
inductive CopySide
  | Source
  | Destination
deriving DecidableEq, Repr

/-- resource.rs `TextureErrorDimension` (axis of a texture overrun). -/
inductive TextureErrorDimension
  | X
  | Y
  | Z
deriving DecidableEq, Repr

/-- wgt::Extent3d. -/
structure Extent3d where
  width : Nat
  height : Nat
  depth_or_array_layers : Nat
deriving DecidableEq, Repr

/-- wgt::Origin3d. -/
structure Origin3d where
  x : Nat
  y : Nat
  z : Nat
deriving DecidableEq, Repr

/-- wgt::ImageDataLayout: byte offset plus optional `NonZeroU32` row/image pitches
(the values are carried as `Nat`). -/
structure ImageDataLayout where
  offset : Nat
  bytes_per_row : Option Nat
  rows_per_image : Option Nat
deriving DecidableEq, Repr

/-- wgt::TextureAspect. -/
inductive TextureAspect
  | All
  | DepthOnly
  | StencilOnly
deriving DecidableEq, Repr

/-- hal::FormatAspects: a set of color/depth/stencil aspect bits. -/
structure FormatAspects where
  color : Bool
  depth : Bool
  stencil : Bool
deriving DecidableEq, Repr

/-- Intersection of two aspect sets (the `&` of bitflags). -/
def FormatAspects.inter (a b : FormatAspects) : FormatAspects :=
  ⟨a.color && b.color, a.depth && b.depth, a.stencil && b.stencil⟩

/-- bitflags `is_empty`. -/
def FormatAspects.is_empty (a : FormatAspects) : Bool :=
  !a.color && !a.depth && !a.stencil

/-- hal::FormatAspects::from(TextureAspect). -/
def FormatAspects.fromAspect : TextureAspect → FormatAspects
  | TextureAspect.All => ⟨true, true, true⟩
  | TextureAspect.DepthOnly => ⟨false, true, false⟩
  | TextureAspect.StencilOnly => ⟨false, false, true⟩

/-- Modelled from the spec: a texture format is represented by exactly the
projection the embedded sources consume, since `wgt` and `conv` are not under
the embedded sources: `format.describe()`'s block dimensions and block size,
the aspect set `hal::FormatAspects::from(format)`, and membership in the
copy-source-allowed / copy-destination-allowed format sets
(`conv::is_valid_copy_src_texture_format` / `..._dst_...`). -/
structure TextureFormat where
  block_width : Nat
  block_height : Nat
  block_size : Nat
  aspects : FormatAspects
  copy_src_allowed : Bool
  copy_dst_allowed : Bool
deriving DecidableEq, Repr

/-- wgt::TextureDimension. -/
inductive TextureDimension
  | D1
  | D2
  | D3
deriving DecidableEq, Repr

/-- wgt::TextureUsages, restricted to the flags the embedded sources test. -/
structure TextureUsages where
  copy_src : Bool
  copy_dst : Bool
deriving DecidableEq, Repr

/-- wgt::TextureDescriptor<()> restricted to the fields the embedded sources read. -/
structure TextureDescriptor where
  size : Extent3d
  mip_level_count : Nat
  dimension : TextureDimension
  format : TextureFormat
  usage : TextureUsages
deriving DecidableEq, Repr

/-- transfer.rs `TransferError`. -/
inductive TransferError
  | InvalidBuffer (id : Nat)
  | InvalidTexture (id : Nat)
  | SameSourceDestinationBuffer
  | MissingCopySrcUsageFlag
  | MissingCopyDstUsageFlag (buf : Option Nat) (tex : Option Nat)
  | BufferOverrun (start_offset end_offset buffer_size : Nat) (side : CopySide)
  | TextureOverrun (start_offset end_offset texture_size : Nat)
      (dimension : TextureErrorDimension) (side : CopySide)
  | InvalidTextureAspect (format : TextureFormat) (aspect : TextureAspect)
  | InvalidTextureMipLevel (level total : Nat)
  | UnalignedBufferOffset (offset : Nat)
  | UnalignedCopySize (size : Nat)
  | UnalignedCopyWidth
  | UnalignedCopyHeight
  | UnalignedCopyOriginX
  | UnalignedCopyOriginY
  | UnalignedBytesPerRow
  | UnspecifiedBytesPerRow
  | UnspecifiedRowsPerImage
  | InvalidBytesPerRow
  | InvalidCopySize
  | InvalidRowsPerImage
  | MismatchedAspects
  | CopyFromForbiddenTextureFormat (format : TextureFormat)
  | CopyToForbiddenTextureFormat (format : TextureFormat)
deriving DecidableEq, Repr

/-- wgt::COPY_BUFFER_ALIGNMENT. -/
def COPY_BUFFER_ALIGNMENT : Nat := 4

/-- wgt::COPY_BYTES_PER_ROW_ALIGNMENT. -/
def COPY_BYTES_PER_ROW_ALIGNMENT : Nat := 256

/-- transfer.rs:151 `validate_linear_texture_data`.  All quantities are the
64-bit (`BufferAddress`) values of the source.  Returns, on success, the number
of buffer bytes required for the copy and the number of bytes between array
layers. -/
def validate_linear_texture_data (layout : ImageDataLayout) (format : TextureFormat)
    (buffer_size : Nat) (buffer_side : CopySide) (bytes_per_block : Nat)
    (copy_size : Extent3d) (need_copy_aligned_rows : Bool) :
    Except TransferError (Nat × Nat) :=
  let copy_width := copy_size.width
  let copy_height := copy_size.height
  let copy_depth := copy_size.depth_or_array_layers
  let offset := layout.offset
  let block_width := format.block_width
  let block_height := format.block_height
  let block_size := bytes_per_block
  let width_in_blocks := copy_width / block_width
  let height_in_blocks := copy_height / block_height
  let bytes_per_row_resolved : Except TransferError Nat :=
    match layout.bytes_per_row with
    | some bytes_per_row => Except.ok bytes_per_row
    | none =>
      if copy_depth > 1 ∨ height_in_blocks > 1 then
        Except.error TransferError.UnspecifiedBytesPerRow
      else
        Except.ok (bytes_per_block * width_in_blocks)
  match bytes_per_row_resolved with
  | Except.error e => Except.error e
  | Except.ok bytes_per_row =>
    let block_rows_per_image_resolved : Except TransferError Nat :=
      match layout.rows_per_image with
      | some rows_per_image => Except.ok rows_per_image
      | none =>
        if copy_depth > 1 then
          Except.error TransferError.UnspecifiedRowsPerImage
        else
          Except.ok (copy_height / block_height)
    match block_rows_per_image_resolved with
    | Except.error e => Except.error e
    | Except.ok block_rows_per_image =>
      let rows_per_image := block_rows_per_image * block_height
      if copy_width % block_width ≠ 0 then
        Except.error TransferError.UnalignedCopyWidth
      else if copy_height % block_height ≠ 0 then
        Except.error TransferError.UnalignedCopyHeight
      else if need_copy_aligned_rows ∧ COPY_BYTES_PER_ROW_ALIGNMENT % bytes_per_block ≠ 0 then
        Except.error TransferError.UnalignedBytesPerRow
      else if need_copy_aligned_rows ∧ bytes_per_row % COPY_BYTES_PER_ROW_ALIGNMENT ≠ 0 then
        Except.error TransferError.UnalignedBytesPerRow
      else
        let bytes_in_last_row := block_size * width_in_blocks
        let bytes_per_image := bytes_per_row * block_rows_per_image
        let required_bytes_in_copy :=
          if copy_width = 0 ∨ copy_height = 0 ∨ copy_depth = 0 then 0
          else bytes_per_image * (copy_depth - 1) +
               (bytes_per_row * (height_in_blocks - 1) + bytes_in_last_row)
        if rows_per_image < copy_height then
          Except.error TransferError.InvalidRowsPerImage
        else if offset + required_bytes_in_copy > buffer_size then
          Except.error (TransferError.BufferOverrun offset
            (offset + required_bytes_in_copy) buffer_size buffer_side)
        else if offset % block_size ≠ 0 then
          Except.error (TransferError.UnalignedBufferOffset offset)
        else if copy_height > 1 ∧ bytes_per_row < bytes_in_last_row then
          Except.error TransferError.InvalidBytesPerRow
        else
          Except.ok (required_bytes_in_copy, bytes_per_image)

/-- The bytes-per-row value `validate_linear_texture_data` resolves on its
success path: the layout's value when supplied, otherwise a tight row. -/
def resolvedBytesPerRow (layout : ImageDataLayout) (bytes_per_block width_in_blocks : Nat) : Nat :=
  match layout.bytes_per_row with
  | some v => v
  | none => bytes_per_block * width_in_blocks

/-- The block-rows-per-image value `validate_linear_texture_data` resolves on
its success path: the layout's value when supplied, otherwise the copy height
in blocks. -/
def resolvedBlockRowsPerImage (layout : ImageDataLayout) (copy_height block_height : Nat) : Nat :=
  match layout.rows_per_image with
  | some v => v
  | none => copy_height / block_height

/-- Modelled from the spec: `wgt::TextureDescriptor::mip_level_size` (the `wgt`
crate is not under the embedded sources).  The virtual extent of a mip level is
the declared extent halved per level (floor, at least 1); depth participates
only for 3D textures; `none` when the level is out of range. -/
def TextureDescriptor.mip_level_size (desc : TextureDescriptor) (level : Nat) :
    Option Extent3d :=
  if desc.mip_level_count ≤ level then none
  else some
    { width := max 1 (desc.size.width >>> level)
      height := max 1 (desc.size.height >>> level)
      depth_or_array_layers :=
        match desc.dimension with
        | TextureDimension.D3 => max 1 (desc.size.depth_or_array_layers >>> level)
        | _ => desc.size.depth_or_array_layers }

/-- Modelled from the spec: `wgt::Extent3d::physical_size` — the virtual extent
rounded up to the next multiple of the format's block dimensions (depth is
unchanged). -/
def Extent3d.physical_size (e : Extent3d) (format : TextureFormat) : Extent3d :=
  { width := (e.width + format.block_width - 1) / format.block_width * format.block_width
    height := (e.height + format.block_height - 1) / format.block_height * format.block_height
    depth_or_array_layers := e.depth_or_array_layers }

/-- hal::CopyExtent. -/
structure CopyExtent where
  width : Nat
  height : Nat
  depth : Nat
deriving DecidableEq, Repr

/-- wgt::ImageCopyTexture<TextureId> (ids are `Nat`). -/
structure ImageCopyTexture where
  texture : Nat
  mip_level : Nat
  origin : Origin3d
  aspect : TextureAspect
deriving DecidableEq, Repr

/-- wgt::ImageCopyBuffer<BufferId>. -/
structure ImageCopyBuffer where
  buffer : Nat
  layout : ImageDataLayout
deriving DecidableEq, Repr

/-- transfer.rs:242 `validate_texture_copy_range`.  Returns the HAL copy extent
and the layer count.  The `height` field of the returned extent is translated
exactly as written in the source (transfer.rs:323), which clamps with
`copy_size.width`. -/
def validate_texture_copy_range (texture_copy_view : ImageCopyTexture)
    (desc : TextureDescriptor) (texture_side : CopySide) (copy_size : Extent3d) :
    Except TransferError (CopyExtent × Nat) :=
  let block_width := desc.format.block_width
  let block_height := desc.format.block_height
  match desc.mip_level_size texture_copy_view.mip_level with
  | none =>
    Except.error (TransferError.InvalidTextureMipLevel
      texture_copy_view.mip_level desc.mip_level_count)
  | some extent_virtual =>
    let extent := extent_virtual.physical_size desc.format
    let x_copy_max := texture_copy_view.origin.x + copy_size.width
    if x_copy_max > extent.width then
      Except.error (TransferError.TextureOverrun texture_copy_view.origin.x
        x_copy_max extent.width TextureErrorDimension.X texture_side)
    else
      let y_copy_max := texture_copy_view.origin.y + copy_size.height
      if y_copy_max > extent.height then
        Except.error (TransferError.TextureOverrun texture_copy_view.origin.y
          y_copy_max extent.height TextureErrorDimension.Y texture_side)
      else
        let z_copy_max := texture_copy_view.origin.z + copy_size.depth_or_array_layers
        if z_copy_max > extent.depth_or_array_layers then
          Except.error (TransferError.TextureOverrun texture_copy_view.origin.z
            z_copy_max extent.depth_or_array_layers TextureErrorDimension.Z texture_side)
        else if texture_copy_view.origin.x % block_width ≠ 0 then
          Except.error TransferError.UnalignedCopyOriginX
        else if texture_copy_view.origin.y % block_height ≠ 0 then
          Except.error TransferError.UnalignedCopyOriginY
        else if copy_size.width % block_width ≠ 0 then
          Except.error TransferError.UnalignedCopyWidth
        else if copy_size.height % block_height ≠ 0 then
          Except.error TransferError.UnalignedCopyHeight
        else
          let depth_and_layers :=
            match desc.dimension with
            | TextureDimension.D1 | TextureDimension.D2 =>
              (1, copy_size.depth_or_array_layers)
            | TextureDimension.D3 =>
              (min copy_size.depth_or_array_layers extent_virtual.depth_or_array_layers, 1)
          let copy_extent : CopyExtent :=
            { width := min copy_size.width extent_virtual.width
              height := min copy_size.width extent_virtual.height
              depth := depth_and_layers.1 }
          Except.ok (copy_extent, depth_and_layers.2)

/-- track `TextureSelector`: a half-open mip-level range and a half-open
array-layer range (each encoded as a pair). -/
structure TextureSelector where
  levels : Nat × Nat
  layers : Nat × Nat
deriving DecidableEq, Repr

/-- hal::TextureCopyBase. -/
structure TextureCopyBase where
  origin : Origin3d
  array_layer : Nat
  mip_level : Nat
  aspect : FormatAspects
deriving DecidableEq, Repr

/-- resource `Texture` restricted to the fields the embedded sources read. -/
structure Texture where
  raw : Bool
  desc : TextureDescriptor
deriving DecidableEq, Repr

/-- Association-list lookup used to model the registry storages
(`Storage<T, Id>::get`) and the spec-modelled trackers. -/
def assocGet {κ α : Type} [DecidableEq κ] (l : List (κ × α)) (k : κ) : Option α :=
  match l with
  | [] => none
  | (k', v) :: rest => if k' = k then some v else assocGet rest k

/-- Association-list update used by the spec-modelled trackers. -/
def assocSet {κ α : Type} [DecidableEq κ] (l : List (κ × α)) (k : κ) (v : α) :
    List (κ × α) :=
  match l with
  | [] => [(k, v)]
  | (k', v') :: rest => if k' = k then (k, v) :: rest else (k', v') :: assocSet rest k v

/-- transfer.rs:104 `extract_texture_selector`. -/
def extract_texture_selector (copy_texture : ImageCopyTexture) (copy_size : Extent3d)
    (texture_guard : List (Nat × Texture)) :
    Except TransferError (TextureSelector × TextureCopyBase × TextureFormat) :=
  match assocGet texture_guard copy_texture.texture with
  | none => Except.error (TransferError.InvalidTexture copy_texture.texture)
  | some texture =>
    let format := texture.desc.format
    let copy_aspect :=
      FormatAspects.inter format.aspects (FormatAspects.fromAspect copy_texture.aspect)
    if copy_aspect.is_empty then
      Except.error (TransferError.InvalidTextureAspect format copy_texture.aspect)
    else
      let layers_and_origin_z :=
        match texture.desc.dimension with
        | TextureDimension.D1 | TextureDimension.D2 =>
          ((copy_texture.origin.z,
            copy_texture.origin.z + copy_size.depth_or_array_layers), 0)
        | TextureDimension.D3 => ((0, 1), copy_texture.origin.z)
      let layers := layers_and_origin_z.1
      let base : TextureCopyBase :=
        { origin := ⟨copy_texture.origin.x, copy_texture.origin.y, layers_and_origin_z.2⟩
          array_layer := layers.1
          mip_level := copy_texture.mip_level
          aspect := copy_aspect }
      let selector : TextureSelector :=
        ⟨(copy_texture.mip_level, copy_texture.mip_level + 1), layers⟩
      Except.ok (selector, base, format)

/-- A 1×1-block, 4-bytes-per-block color format (the shape of RGBA8). -/
def fmtRGBA8 : TextureFormat := ⟨1, 1, 4, ⟨true, false, false⟩, true, true⟩

/-- A 1×1-block, 1-byte-per-block color format (the shape of R8). -/
def fmtR8 : TextureFormat := ⟨1, 1, 1, ⟨true, false, false⟩, true, true⟩

/-- A 4×4, single-mip, 2D texture descriptor over `fmtRGBA8`. -/
def descRGBA8x4 : TextureDescriptor :=
  ⟨⟨4, 4, 1⟩, 1, TextureDimension.D2, fmtRGBA8, ⟨true, true⟩⟩

/-- C1: `validate_texture_copy_range` does not clamp the returned extent's
height on its own axis.  Copying 1×4×1 texels at the origin of a 4×4 RGBA8
texture (virtual mip extent 4×4) passes every bound and alignment check, and
the source (transfer.rs:323) computes
`copy_extent.height = min copy_size.width virtual.height = 1`, whereas the
claimed per-axis clamp requires `min copy_size.height virtual.height = 4`. -/
theorem copy_extent_height_not_clamped_per_axis :
    validate_texture_copy_range ⟨0, 0, ⟨0, 0, 0⟩, TextureAspect.All⟩ descRGBA8x4
        CopySide.Source ⟨1, 4, 1⟩ = Except.ok (⟨1, 1, 1⟩, 1)
    ∧ (1 : Nat) ≠ min 4 4 := by decide

set_option maxHeartbeats 2000000 in
/-- C2: on every success of `validate_linear_texture_data`, the returned
required byte count follows the spec formula
`bytes_per_row * block_rows_per_image * (copy_depth - 1)
 + bytes_per_row * (height_in_blocks - 1)
 + bytes_per_block * width_in_blocks`
(with the resolved `bytes_per_row` and `block_rows_per_image`) when all three
copy dimensions are non-zero, and is `0` whenever any dimension is zero. -/
theorem required_bytes_formula (layout : ImageDataLayout) (format : TextureFormat)
    (buffer_size : Nat) (buffer_side : CopySide) (bytes_per_block : Nat)
    (copy_size : Extent3d) (need_copy_aligned_rows : Bool) (required bpi : Nat)
    (hok : validate_linear_texture_data layout format buffer_size buffer_side
      bytes_per_block copy_size need_copy_aligned_rows = Except.ok (required, bpi)) :
    (0 < copy_size.width → 0 < copy_size.height → 0 < copy_size.depth_or_array_layers →
      required =
        resolvedBytesPerRow layout bytes_per_block (copy_size.width / format.block_width) *
          resolvedBlockRowsPerImage layout copy_size.height format.block_height *
          (copy_size.depth_or_array_layers - 1) +
        resolvedBytesPerRow layout bytes_per_block (copy_size.width / format.block_width) *
          (copy_size.height / format.block_height - 1) +
        bytes_per_block * (copy_size.width / format.block_width))
    ∧ ((copy_size.width = 0 ∨ copy_size.height = 0 ∨ copy_size.depth_or_array_layers = 0) →
        required = 0) := by
  rcases hbpr : layout.bytes_per_row with _ | v <;>
    rcases hrpi : layout.rows_per_image with _ | w <;>
    simp only [validate_linear_texture_data, hbpr, hrpi, resolvedBytesPerRow,
      resolvedBlockRowsPerImage] at hok ⊢
  case none.none =>
    by_cases hc1 : copy_size.depth_or_array_layers > 1 ∨
        copy_size.height / format.block_height > 1
    · rw [if_pos hc1] at hok
      exact (Except.noConfusion hok)
    · by_cases hc2 : copy_size.depth_or_array_layers > 1
      · exact absurd (Or.inl hc2) hc1
      · rw [if_neg hc1, if_neg hc2] at hok
        try simp only [] at hok
        repeat' split at hok
        all_goals
          first
            | exact (Except.noConfusion hok)
            | (injection hok with h1
               injection h1 with hreq hbpi
               subst hreq
               refine ⟨?_, ?_⟩
               · intro hw hh hd
                 omega
               · intro hz
                 first
                   | rfl
                   | omega)
  case none.some =>
    by_cases hc1 : copy_size.depth_or_array_layers > 1 ∨
        copy_size.height / format.block_height > 1
    · rw [if_pos hc1] at hok
      exact (Except.noConfusion hok)
    · rw [if_neg hc1] at hok
      try simp only [] at hok
      repeat' split at hok
      all_goals
        first
          | exact (Except.noConfusion hok)
          | (injection hok with h1
             injection h1 with hreq hbpi
             subst hreq
             refine ⟨?_, ?_⟩
             · intro hw hh hd
               omega
             · intro hz
               first
                 | rfl
                 | omega)
  case some.none =>
    by_cases hc2 : copy_size.depth_or_array_layers > 1
    · rw [if_pos hc2] at hok
      try simp only [] at hok
      exact (Except.noConfusion hok)
    · rw [if_neg hc2] at hok
      try simp only [] at hok
      repeat' split at hok
      all_goals
        first
          | exact (Except.noConfusion hok)
          | (injection hok with h1
             injection h1 with hreq hbpi
             subst hreq
             refine ⟨?_, ?_⟩
             · intro hw hh hd
               omega
             · intro hz
               first
                 | rfl
                 | omega)
  case some.some =>
    try simp only [] at hok
    repeat' split at hok
    all_goals
      first
        | exact (Except.noConfusion hok)
        | (injection hok with h1
           injection h1 with hreq hbpi
           subst hreq
           refine ⟨?_, ?_⟩
           · intro hw hh hd
             omega
           · intro hz
             first
               | rfl
               | omega)

/-- Witness of `required_bytes_formula` at the spec's E3 scenario (RGBA8,
16×16×1, 256 bytes per row in a 4096-byte buffer: 3904 required bytes). -/
theorem required_bytes_formula_witness :
    validate_linear_texture_data ⟨0, some 256, none⟩ fmtRGBA8 4096 CopySide.Source 4
        ⟨16, 16, 1⟩ true = Except.ok (3904, 4096)
    ∧ (3904 =
        resolvedBytesPerRow ⟨0, some 256, none⟩ 4 (16 / 1) *
          resolvedBlockRowsPerImage ⟨0, some 256, none⟩ 16 1 * (1 - 1) +
        resolvedBytesPerRow ⟨0, some 256, none⟩ 4 (16 / 1) * (16 / 1 - 1) +
        4 * (16 / 1)) :=
  ⟨by decide,
    (required_bytes_formula ⟨0, some 256, none⟩ fmtRGBA8 4096 CopySide.Source 4
      ⟨16, 16, 1⟩ true 3904 4096 (by decide)).1 (by decide) (by decide) (by decide)⟩

/-- C3 counterexample: with `copy_depth = 2` and both `bytes_per_row` and
`rows_per_image` absent, validation fails with `UnspecifiedBytesPerRow` — the
`bytes_per_row` resolution runs first — not with `UnspecifiedRowsPerImage` as
the claim requires. -/
theorem unspecified_rows_per_image_cex :
    validate_linear_texture_data ⟨0, none, none⟩ fmtR8 100 CopySide.Source 1
        ⟨1, 1, 2⟩ false = Except.error TransferError.UnspecifiedBytesPerRow
    ∧ validate_linear_texture_data ⟨0, none, none⟩ fmtR8 100 CopySide.Source 1
        ⟨1, 1, 2⟩ false ≠ Except.error TransferError.UnspecifiedRowsPerImage := by
  decide

/-- C3 (amended): if `copy_depth > 1`, `rows_per_image` is absent and
`bytes_per_row` is present, validation fails with `UnspecifiedRowsPerImage`;
and whenever (`copy_depth > 1` or `height_in_blocks > 1`) and `bytes_per_row`
is absent, validation fails with `UnspecifiedBytesPerRow` (which takes
precedence when both layout fields are absent). -/
theorem unspecification_laws (layout : ImageDataLayout) (format : TextureFormat)
    (buffer_size : Nat) (buffer_side : CopySide) (bytes_per_block : Nat)
    (copy_size : Extent3d) (need_copy_aligned_rows : Bool) :
    (1 < copy_size.depth_or_array_layers → layout.rows_per_image = none →
      layout.bytes_per_row ≠ none →
      validate_linear_texture_data layout format buffer_size buffer_side
        bytes_per_block copy_size need_copy_aligned_rows =
        Except.error TransferError.UnspecifiedRowsPerImage)
    ∧ ((1 < copy_size.depth_or_array_layers ∨
          1 < copy_size.height / format.block_height) →
      layout.bytes_per_row = none →
      validate_linear_texture_data layout format buffer_size buffer_side
        bytes_per_block copy_size need_copy_aligned_rows =
        Except.error TransferError.UnspecifiedBytesPerRow) := by
  constructor
  · intro hd hrpi hbpr
    rcases hv : layout.bytes_per_row with _ | v
    · exact absurd hv hbpr
    · unfold validate_linear_texture_data
      rw [hv, hrpi]
      simp [hd]
  · intro hcond hbpr
    unfold validate_linear_texture_data
    rw [hbpr]
    simp [hcond]

/-- Witness of `unspecification_laws`: both conjuncts applied at concrete
layouts with `copy_depth = 2`. -/
theorem unspecification_laws_witness :
    validate_linear_texture_data ⟨0, some 4, none⟩ fmtR8 100 CopySide.Source 1
        ⟨1, 1, 2⟩ false = Except.error TransferError.UnspecifiedRowsPerImage
    ∧ validate_linear_texture_data ⟨0, none, some 1⟩ fmtR8 100 CopySide.Source 1
        ⟨1, 1, 2⟩ false = Except.error TransferError.UnspecifiedBytesPerRow :=
  ⟨(unspecification_laws ⟨0, some 4, none⟩ fmtR8 100 CopySide.Source 1
      ⟨1, 1, 2⟩ false).1 (by decide) (by decide) (by decide),
   (unspecification_laws ⟨0, none, some 1⟩ fmtR8 100 CopySide.Source 1
      ⟨1, 1, 2⟩ false).2 (Or.inl (by decide)) (by decide)⟩

/-- queue.rs:880-888, the loop of `get_greatest_common_divisor`: compute
`c = a % b`; return `b` when `c = 0`, else continue with `(b, c)`.  The `b = 0`
guard is unreachable under the wrapper below, which maps that case (a Rust
division-by-zero panic) to `none` before entering the loop. -/
def gcd_loop (a b : Nat) : Nat :=
  if hb : b = 0 then 0
  else
    if a % b = 0 then b
    else gcd_loop b (a % b)
termination_by b
decreasing_by exact Nat.mod_lt _ (Nat.pos_of_ne_zero hb)

/-- queue.rs:878 `get_greatest_common_divisor`.  `none` models a panic: a
failing `assert!(a >= b)`, or the division by zero in `a % b` when `b = 0`. -/
def get_greatest_common_divisor (a b : Nat) : Option Nat :=
  if a < b then none
  else if b = 0 then none
  else some (gcd_loop a b)

/-- queue.rs:869 `get_lowest_common_denom`: `a * b / gcd`, calling the gcd with
its arguments ordered to satisfy its assertion. -/
def get_lowest_common_denom (a b : Nat) : Option Nat :=
  match (if b ≤ a then get_greatest_common_divisor a b
         else get_greatest_common_divisor b a) with
  | none => none
  | some gcd => some (a * b / gcd)

/-- queue.rs:891 `align_to`.  `none` models the division-by-zero panic when the
alignment is `0`. -/
def align_to (value alignment : Nat) : Option Nat :=
  if alignment = 0 then none
  else
    match value % alignment with
    | 0 => some value
    | other => some (value - other + alignment)

/-- The loop of the source gcd computes `Nat.gcd` (arguments swapped) whenever
the second argument is positive. -/
theorem gcd_loop_eq_gcd : ∀ b, 0 < b → ∀ a, gcd_loop a b = Nat.gcd b a := by
  intro b
  induction b using Nat.strong_induction_on with
  | _ b ih =>
    intro hb a
    rw [gcd_loop, dif_neg (Nat.pos_iff_ne_zero.mp hb)]
    by_cases h : a % b = 0
    · rw [if_pos h]
      exact (Nat.gcd_eq_left (Nat.dvd_of_mod_eq_zero h)).symm
    · rw [if_neg h, ih (a % b) (Nat.mod_lt _ hb) (Nat.pos_of_ne_zero h) b]
      exact (Nat.gcd_rec b a).symm

/-- `get_greatest_common_divisor` returns `Nat.gcd` on its panic-free domain. -/
theorem get_gcd_eq (a b : Nat) (hba : b ≤ a) (hb : 0 < b) :
    get_greatest_common_divisor a b = some (Nat.gcd a b) := by
  unfold get_greatest_common_divisor
  rw [if_neg (by omega), if_neg (by omega), gcd_loop_eq_gcd b hb a, Nat.gcd_comm]

/-- `get_lowest_common_denom` returns `Nat.lcm` on positive arguments. -/
theorem get_lcm_eq (a b : Nat) (ha : 0 < a) (hb : 0 < b) :
    get_lowest_common_denom a b = some (Nat.lcm a b) := by
  unfold get_lowest_common_denom
  by_cases h : b ≤ a
  · rw [if_pos h, get_gcd_eq a b h hb]
    simp [Nat.lcm]
  · rw [if_neg h, get_gcd_eq b a (by omega) ha]
    simp only []
    rw [Nat.gcd_comm b a]
    simp [Nat.lcm]

/-- `get_lowest_common_denom` is `none` whenever either argument is `0`. -/
theorem get_lcm_zero (a b : Nat) (h : a = 0 ∨ b = 0) :
    get_lowest_common_denom a b = none := by
  unfold get_lowest_common_denom get_greatest_common_divisor
  rcases h with h | h <;> subst h <;> split <;> rename_i hle <;> simp_all

/-- C8 counterexample: the helpers are not total on all non-negative integers:
at `b = 0` (or alignment `0`) the source divides by zero (`a % 0`), modelled as
`none`, so no value is returned that could divide `a` and `b`. -/
theorem gcd_on_zero_cex :
    get_greatest_common_divisor 5 0 = none
    ∧ get_lowest_common_denom 5 0 = none
    ∧ align_to 5 0 = none := by decide

/-- `align_to` on a positive alignment rounds its input up to the next multiple
of the alignment: the result is a multiple, at least the input, and less than
one alignment above it. -/
theorem align_to_char (v al : Nat) (hal : 0 < al) :
    ∃ w, align_to v al = some w ∧ w % al = 0 ∧ v ≤ w ∧ w - v < al := by
  unfold align_to
  rw [if_neg (Nat.pos_iff_ne_zero.mp hal)]
  have h1 : v % al < al := Nat.mod_lt _ hal
  have h2 : v % al ≤ v := Nat.mod_le v al
  have h3 : al * (v / al) + v % al = v := Nat.div_add_mod v al
  split
  · rename_i heq
    exact ⟨v, rfl, heq, Nat.le_refl v, by omega⟩
  · rename_i r heq
    have hpos : 0 < v % al := Nat.pos_of_ne_zero (fun h => heq h)
    have hle : v ≤ v - v % al + al := by
      clear h3 heq
      generalize v % al = m at hpos h1 h2 ⊢
      omega
    have hbound : v - v % al + al - v < al := by
      clear h3 heq
      generalize v % al = m at hpos h1 h2 ⊢
      omega
    refine ⟨v - v % al + al, rfl, ?_, hle, hbound⟩
    have heq2 : v - v % al + al = al * (v / al + 1) := by
      rw [Nat.mul_add, Nat.mul_one]
      clear heq hbound hle
      generalize al * (v / al) = q at h3
      generalize v % al = m at hpos h1 h2 h3 ⊢
      omega
    rw [heq2]
    exact Nat.mul_mod_right al _

/-- C8 (amended): on its panic-free domain `a ≥ b ≥ 1` the source gcd equals
`Nat.gcd a b`, which divides both arguments; for `a, b ≥ 1` the source lcm is
`Nat.lcm a b` and `lcm * gcd = a * b`; and for alignment ≥ 1, `align_to`
returns a value that is `0 mod alignment` and exceeds the input by less than
the alignment. -/
theorem gcd_lcm_align_to_props (a b v al : Nat) :
    (b ≤ a → 0 < b →
      get_greatest_common_divisor a b = some (Nat.gcd a b)
        ∧ Nat.gcd a b ∣ a ∧ Nat.gcd a b ∣ b)
    ∧ (0 < a → 0 < b →
      get_lowest_common_denom a b = some (Nat.lcm a b)
        ∧ Nat.lcm a b * Nat.gcd a b = a * b)
    ∧ (0 < al → ∃ w, align_to v al = some w ∧ w % al = 0 ∧ w - v < al) := by
  refine ⟨fun h1 h2 => ⟨get_gcd_eq a b h1 h2, Nat.gcd_dvd_left a b, Nat.gcd_dvd_right a b⟩,
    fun ha hb => ⟨get_lcm_eq a b ha hb, ?_⟩, ?_⟩
  · rw [Nat.mul_comm]
    exact Nat.gcd_mul_lcm a b
  · intro hal
    obtain ⟨w, hw, hmod, _, hlt⟩ := align_to_char v al hal
    exact ⟨w, hw, hmod, hlt⟩

/-- Witness of `gcd_lcm_align_to_props` at `a = 6`, `b = 4`, `v = 100`,
`al = 256`. -/
theorem gcd_lcm_align_to_props_witness :
    (get_greatest_common_divisor 6 4 = some (Nat.gcd 6 4)
      ∧ Nat.gcd 6 4 ∣ 6 ∧ Nat.gcd 6 4 ∣ 4)
    ∧ (get_lowest_common_denom 6 4 = some (Nat.lcm 6 4)
      ∧ Nat.lcm 6 4 * Nat.gcd 6 4 = 6 * 4)
    ∧ (∃ w, align_to 100 256 = some w ∧ w % 256 = 0 ∧ w - 100 < 256) :=
  ⟨(gcd_lcm_align_to_props 6 4 100 256).1 (by decide) (by decide),
   (gcd_lcm_align_to_props 6 4 100 256).2.1 (by decide) (by decide),
   (gcd_lcm_align_to_props 6 4 100 256).2.2 (by decide)⟩

/-- C10: the source gcd terminates with `Nat.gcd a b` on `a ≥ b ≥ 1` (the shallow
embedding is total by the strictly decreasing second argument); `b = 0` is
outside its domain (`a % 0` would divide by zero); and `get_lowest_common_denom`
returns a value exactly when both arguments are positive. -/
theorem gcd_terminates_on_domain (a b : Nat) :
    (b ≤ a → 0 < b → ∃ g, get_greatest_common_divisor a b = some g ∧ g = Nat.gcd a b)
    ∧ get_greatest_common_divisor a 0 = none
    ∧ ((get_lowest_common_denom a b).isSome ↔ 0 < a ∧ 0 < b) := by
  refine ⟨fun h1 h2 => ⟨Nat.gcd a b, get_gcd_eq a b h1 h2, rfl⟩, ?_, ?_, ?_⟩
  · unfold get_greatest_common_divisor
    rw [if_neg (by omega), if_pos rfl]
  · intro hs
    by_contra hne
    have hz : a = 0 ∨ b = 0 := by omega
    rw [get_lcm_zero a b hz] at hs
    exact (Bool.false_ne_true (by simpa using hs))
  · rintro ⟨ha, hb⟩
    rw [get_lcm_eq a b ha hb]
    rfl

/-- Witness of `gcd_terminates_on_domain` at `a = 6`, `b = 4` (and `b = 0` for
the panic case). -/
theorem gcd_terminates_on_domain_witness :
    (∃ g, get_greatest_common_divisor 6 4 = some g ∧ g = Nat.gcd 6 4)
    ∧ get_greatest_common_divisor 6 0 = none
    ∧ (get_lowest_common_denom 6 4).isSome :=
  ⟨(gcd_terminates_on_domain 6 4).1 (by decide) (by decide),
   (gcd_terminates_on_domain 6 0).2.1,
   ((gcd_terminates_on_domain 6 4).2.2).mpr ⟨by decide, by decide⟩⟩

/-- queue.rs:59 `EncoderInFlight` (encoders and command buffers are ids). -/
structure EncoderInFlight where
  raw : Nat
  cmd_buffers : List Nat
deriving DecidableEq, Repr

/-- queue.rs:72 `PendingWrites` (backend objects are ids). -/
structure PendingWrites where
  command_encoder : Nat
  is_active : Bool
  temp_resources : List Nat
  dst_buffers : List Nat
  dst_textures : List Nat
  executing_command_buffers : List Nat
deriving DecidableEq, Repr

/-- queue.rs:23 `WRITE_COMMAND_BUFFERS_PER_POOL`. -/
def WRITE_COMMAND_BUFFERS_PER_POOL : Nat := 64

/-- queue.rs:138 `PendingWrites::post_submit`.  The command allocator's fresh
encoder is passed as a parameter; the old encoder and its accumulated command
buffers are returned as an `EncoderInFlight` exactly when the pool threshold is
reached. -/
def PendingWrites.post_submit (self : PendingWrites) (new_encoder : Nat) :
    Option EncoderInFlight × PendingWrites :=
  if self.executing_command_buffers.length ≥ WRITE_COMMAND_BUFFERS_PER_POOL then
    (some ⟨self.command_encoder, self.executing_command_buffers⟩,
      { self with command_encoder := new_encoder, executing_command_buffers := [] })
  else
    (none, self)

/-- C9: after a submit, the pending-writes encoder is recycled exactly when it
has accumulated at least `WRITE_COMMAND_BUFFERS_PER_POOL = 64` finished command
buffers: a fresh encoder replaces it and the old one is retired with its
buffers as an `EncoderInFlight`; otherwise the state is unchanged. -/
theorem pending_writes_post_submit_recycles (pw : PendingWrites) (new_encoder : Nat) :
    WRITE_COMMAND_BUFFERS_PER_POOL = 64
    ∧ pw.post_submit new_encoder =
      (if 64 ≤ pw.executing_command_buffers.length then
        (some ⟨pw.command_encoder, pw.executing_command_buffers⟩,
          { pw with command_encoder := new_encoder, executing_command_buffers := [] })
      else (none, pw)) := by
  exact ⟨rfl, rfl⟩

/-- One row copy of `queue_write_texture`'s staging loop: source offset into the
user data, destination offset into the staging mapping, and byte count. -/
structure StageRowCopy where
  src_offset : Nat
  dst_offset : Nat
  len : Nat
deriving DecidableEq, Repr

/-- The host-to-staging copy plan of `queue_write_texture`: either one bulk copy
(fast path) or one copy per (layer, row) pair. -/
inductive StageCopyPlan
  | bulk (len : Nat)
  | rows (copies : List StageRowCopy)
deriving DecidableEq, Repr

/-- The staging-layout quantities `queue_write_texture` computes. -/
structure StageLayout where
  block_rows_per_image : Nat
  stage_bytes_per_row : Nat
  stage_size : Nat
  bytes_per_row : Nat
  plan : StageCopyPlan
deriving DecidableEq, Repr

/-- queue.rs:461-540: the staging-layout computation and the host-to-staging
copy loop of `queue_write_texture`, as a function of the quantities that part
of the source reads (the data layout, copy size, format descriptor and the
device's `alignments.buffer_copy_pitch`).  `none` models the panics of
`get_lowest_common_denom`/`align_to` on zero arguments. -/
def queue_write_texture_staging (data_layout : ImageDataLayout) (size : Extent3d)
    (format_desc : TextureFormat) (buffer_copy_pitch : Nat) : Option StageLayout :=
  let block_width := format_desc.block_width
  let block_height := format_desc.block_height
  let width_blocks := size.width / block_width
  let height_blocks := size.height / block_height
  let block_rows_per_image :=
    match data_layout.rows_per_image with
    | some rows_per_image => rows_per_image
    | none => size.height
  match get_lowest_common_denom buffer_copy_pitch format_desc.block_size with
  | none => none
  | some bytes_per_row_alignment =>
    match align_to (format_desc.block_size * width_blocks) bytes_per_row_alignment with
    | none => none
    | some stage_bytes_per_row =>
      let block_rows_in_copy :=
        (size.depth_or_array_layers - 1) * block_rows_per_image + height_blocks
      let stage_size := stage_bytes_per_row * block_rows_in_copy
      let bytes_per_row :=
        match data_layout.bytes_per_row with
        | some bytes_per_row => bytes_per_row
        | none => width_blocks * format_desc.block_size
      let plan :=
        if stage_bytes_per_row = bytes_per_row then
          StageCopyPlan.bulk stage_size
        else
          let copy_bytes_per_row := min stage_bytes_per_row bytes_per_row
          StageCopyPlan.rows ((List.range size.depth_or_array_layers).flatMap (fun layer =>
            (List.range height_blocks).map (fun row =>
              ⟨(layer * block_rows_per_image + row) * bytes_per_row,
               (layer * block_rows_per_image + row) * stage_bytes_per_row,
               copy_bytes_per_row⟩)))
      some ⟨block_rows_per_image, stage_bytes_per_row, stage_size, bytes_per_row, plan⟩

/-- C6: the staging layout of `queue_write_texture`.  With a positive pitch
alignment and block size, `stage_bytes_per_row` is the round-up of
`bytes_per_block * width_in_blocks` to `lcm(buffer_copy_pitch, bytes_per_block)`
(a multiple of the lcm, at least the tight row, less than one lcm above it);
`stage_size = stage_bytes_per_row * ((depth - 1) * block_rows_per_image +
height_in_blocks)`; the host data is copied in one bulk copy when the user's
`bytes_per_row` equals `stage_bytes_per_row`, and otherwise row by row:
`min(stage_bytes_per_row, bytes_per_row)` bytes per (layer, row) pair from
`src_offset = (layer * block_rows_per_image + row) * bytes_per_row` to
`dst_offset = (layer * block_rows_per_image + row) * stage_bytes_per_row`. -/
theorem write_texture_staging_layout (data_layout : ImageDataLayout) (size : Extent3d)
    (fd : TextureFormat) (pitch : Nat) (hp : 0 < pitch) (hb : 0 < fd.block_size) :
    ∃ sl, queue_write_texture_staging data_layout size fd pitch = some sl
      ∧ sl.stage_bytes_per_row % Nat.lcm pitch fd.block_size = 0
      ∧ fd.block_size * (size.width / fd.block_width) ≤ sl.stage_bytes_per_row
      ∧ sl.stage_bytes_per_row - fd.block_size * (size.width / fd.block_width) <
          Nat.lcm pitch fd.block_size
      ∧ sl.block_rows_per_image =
          (match data_layout.rows_per_image with
           | some r => r
           | none => size.height)
      ∧ sl.stage_size = sl.stage_bytes_per_row *
          ((size.depth_or_array_layers - 1) * sl.block_rows_per_image +
            size.height / fd.block_height)
      ∧ sl.bytes_per_row =
          (match data_layout.bytes_per_row with
           | some r => r
           | none => (size.width / fd.block_width) * fd.block_size)
      ∧ (sl.bytes_per_row = sl.stage_bytes_per_row →
          sl.plan = StageCopyPlan.bulk sl.stage_size)
      ∧ (sl.bytes_per_row ≠ sl.stage_bytes_per_row →
          ∃ copies, sl.plan = StageCopyPlan.rows copies
            ∧ copies.length =
                size.depth_or_array_layers * (size.height / fd.block_height)
            ∧ ∀ e, e ∈ copies ↔ ∃ layer, layer < size.depth_or_array_layers ∧
                ∃ row, row < size.height / fd.block_height ∧
                  e = ⟨(layer * sl.block_rows_per_image + row) * sl.bytes_per_row,
                       (layer * sl.block_rows_per_image + row) * sl.stage_bytes_per_row,
                       min sl.stage_bytes_per_row sl.bytes_per_row⟩) := by
  have hlcm : 0 < Nat.lcm pitch fd.block_size := Nat.lcm_pos hp hb
  obtain ⟨w, hw, hmod, hle, hlt⟩ :=
    align_to_char (fd.block_size * (size.width / fd.block_width))
      (Nat.lcm pitch fd.block_size) hlcm
  unfold queue_write_texture_staging
  rw [get_lcm_eq pitch fd.block_size hp hb]
  simp only []
  rw [hw]
  simp only []
  refine ⟨_, rfl, hmod, hle, hlt, rfl, rfl, rfl, ?_, ?_⟩
  · intro h
    simp only [if_pos h.symm]
  · intro h
    rw [if_neg (fun hh => h hh.symm)]
    refine ⟨_, rfl, ?_, ?_⟩
    · rw [List.length_flatMap]
      have hmapconst :
          (List.range size.depth_or_array_layers).map
              (List.length ∘ fun layer =>
                (List.range (size.height / fd.block_height)).map (fun row =>
                  (⟨(layer * (match data_layout.rows_per_image with
                        | some rows_per_image => rows_per_image
                        | none => size.height) + row) *
                      (match data_layout.bytes_per_row with
                        | some bytes_per_row => bytes_per_row
                        | none => size.width / fd.block_width * fd.block_size),
                    (layer * (match data_layout.rows_per_image with
                        | some rows_per_image => rows_per_image
                        | none => size.height) + row) * w,
                    min w (match data_layout.bytes_per_row with
                        | some bytes_per_row => bytes_per_row
                        | none => size.width / fd.block_width * fd.block_size)⟩ :
                      StageRowCopy))) =
            List.replicate size.depth_or_array_layers
              (size.height / fd.block_height) := by
        apply List.eq_replicate_iff.mpr
        constructor
        · simp
        · intro b hbmem
          simp only [List.mem_map, Function.comp] at hbmem
          obtain ⟨a, _, hba⟩ := hbmem
          simp [← hba]
      rw [hmapconst, List.sum_replicate, smul_eq_mul]
    · intro e
      simp only [List.mem_flatMap, List.mem_map, List.mem_range]
      constructor
      · rintro ⟨layer, hlayer, row, hrow, he⟩
        exact ⟨layer, hlayer, row, hrow, he.symm⟩
      · rintro ⟨layer, hlayer, row, hrow, he⟩
        exact ⟨layer, hlayer, row, hrow, he.symm⟩

/-- Witness of `write_texture_staging_layout` at the spec's E5 scenario
(RGBA8, 16×16×1, user `bytes_per_row = 64`, pitch alignment 256): the staging
row is 256 bytes, the staging buffer 4096 bytes, and the copy is row-by-row. -/
theorem write_texture_staging_layout_witness :
    ∃ sl, queue_write_texture_staging ⟨0, some 64, none⟩ ⟨16, 16, 1⟩ fmtRGBA8 256 = some sl
      ∧ sl.stage_bytes_per_row % Nat.lcm 256 fmtRGBA8.block_size = 0
      ∧ fmtRGBA8.block_size * (16 / fmtRGBA8.block_width) ≤ sl.stage_bytes_per_row
      ∧ sl.stage_bytes_per_row - fmtRGBA8.block_size * (16 / fmtRGBA8.block_width) <
          Nat.lcm 256 fmtRGBA8.block_size
      ∧ sl.block_rows_per_image =
          (match (⟨0, some 64, none⟩ : ImageDataLayout).rows_per_image with
           | some r => r
           | none => (16 : Nat))
      ∧ sl.stage_size = sl.stage_bytes_per_row *
          ((1 - 1) * sl.block_rows_per_image + 16 / fmtRGBA8.block_height)
      ∧ sl.bytes_per_row =
          (match (⟨0, some 64, none⟩ : ImageDataLayout).bytes_per_row with
           | some r => r
           | none => 16 / fmtRGBA8.block_width * fmtRGBA8.block_size)
      ∧ (sl.bytes_per_row = sl.stage_bytes_per_row →
          sl.plan = StageCopyPlan.bulk sl.stage_size)
      ∧ (sl.bytes_per_row ≠ sl.stage_bytes_per_row →
          ∃ copies, sl.plan = StageCopyPlan.rows copies
            ∧ copies.length = 1 * (16 / fmtRGBA8.block_height)
            ∧ ∀ e, e ∈ copies ↔ ∃ layer, layer < 1 ∧
                ∃ row, row < 16 / fmtRGBA8.block_height ∧
                  e = ⟨(layer * sl.block_rows_per_image + row) * sl.bytes_per_row,
                       (layer * sl.block_rows_per_image + row) * sl.stage_bytes_per_row,
                       min sl.stage_bytes_per_row sl.bytes_per_row⟩) :=
  write_texture_staging_layout ⟨0, some 64, none⟩ ⟨16, 16, 1⟩ fmtRGBA8 256
    (by decide) (by decide)

/-- hal::BufferUses restricted to the uses the embedded sources record. -/
inductive BufferUse
  | COPY_SRC
  | COPY_DST
deriving DecidableEq, Repr

/-- hal::TextureUses restricted to the uses the embedded sources record. -/
inductive TextureUse
  | COPY_SRC
  | COPY_DST
deriving DecidableEq, Repr

/-- wgt::BufferUsages restricted to the flags the embedded sources test. -/
structure BufferUsages where
  copy_src : Bool
  copy_dst : Bool
deriving DecidableEq, Repr

/-- resource `Buffer` restricted to the fields the embedded sources read: the
backend handle (`raw = false` means destroyed), byte size, declared usages,
and the memory-init tracker's list of uninitialized byte ranges. -/
structure Buffer where
  raw : Bool
  size : Nat
  usage : BufferUsages
  initialization_status : List (Nat × Nat)
deriving DecidableEq, Repr

/-- hal::BufferBarrier, by buffer id: a pending use transition. -/
structure BufferBarrier where
  buffer : Nat
  usage_from : BufferUse
  usage_to : BufferUse
deriving DecidableEq, Repr

/-- hal::TextureBarrier, by texture id and sub-resource selector. -/
structure TextureBarrier where
  texture : Nat
  selector : TextureSelector
  usage_from : TextureUse
  usage_to : TextureUse
deriving DecidableEq, Repr

/-- Modelled from the spec: the buffer half of the resource-state tracker (the
`track` module is not under the embedded sources).  It maintains the currently
recorded use per buffer id; `use_replace` looks the resource up in the storage
(failing exactly when the id is absent), records the new use, and returns the
pending transition when a different use was previously recorded. -/
def buffer_use_replace (tracker : List (Nat × BufferUse))
    (storage : List (Nat × Buffer)) (id : Nat) (usage : BufferUse) :
    Except Unit (Buffer × List BufferBarrier × List (Nat × BufferUse)) :=
  match assocGet storage id with
  | none => Except.error ()
  | some buf =>
    let pending :=
      match assocGet tracker id with
      | some old => if old ≠ usage then [⟨id, old, usage⟩] else []
      | none => []
    Except.ok (buf, pending, assocSet tracker id usage)

/-- Modelled from the spec: the texture half of the resource-state tracker,
keyed by (id, selector) sub-resource set.  `none` models the panic of the
`.unwrap()` at the texture call sites when the id is absent from the storage. -/
def texture_use_replace (tracker : List ((Nat × TextureSelector) × TextureUse))
    (storage : List (Nat × Texture)) (id : Nat) (selector : TextureSelector)
    (usage : TextureUse) :
    Option (Texture × List TextureBarrier × List ((Nat × TextureSelector) × TextureUse)) :=
  match assocGet storage id with
  | none => none
  | some tex =>
    let pending :=
      match assocGet tracker (id, selector) with
      | some old => if old ≠ usage then [⟨id, selector, old, usage⟩] else []
      | none => []
    some (tex, pending, assocSet tracker (id, selector) usage)

/-- memory_init_tracker `MemoryInitKind`. -/
inductive MemoryInitKind
  | ImplicitlyInitialized
  | NeedsInitializedMemory
deriving DecidableEq, Repr

/-- memory_init_tracker `MemoryInitTrackerAction` (byte ranges as pairs). -/
structure MemoryInitTrackerAction where
  id : Nat
  range : Nat × Nat
  kind : MemoryInitKind
deriving DecidableEq, Repr

/-- Modelled from the spec: `initialization_status.check(range)` yields the
sub-ranges of `range` that are still uninitialized (the memory_init_tracker
module is not under the embedded sources). -/
def init_check (status : List (Nat × Nat)) (range : Nat × Nat) : List (Nat × Nat) :=
  (status.map (fun u => (max u.1 range.1, min u.2 range.2))).filter
    (fun s => s.1 < s.2)

/-- hal::BufferCopy. -/
structure BufferCopy where
  src_offset : Nat
  dst_offset : Nat
  size : Nat
deriving DecidableEq, Repr

/-- hal::BufferTextureCopy. -/
structure BufferTextureCopy where
  buffer_layout : ImageDataLayout
  texture_base : TextureCopyBase
  size : CopyExtent
deriving DecidableEq, Repr

/-- hal::TextureCopy. -/
structure TextureCopy where
  src_base : TextureCopyBase
  dst_base : TextureCopyBase
  size : CopyExtent
deriving DecidableEq, Repr

/-- A backend (hal) command recorded on a command encoder. -/
inductive HalCommand
  | transition_buffers (barriers : List BufferBarrier)
  | transition_textures (barriers : List TextureBarrier)
  | copy_buffer_to_buffer (src dst : Nat) (regions : List BufferCopy)
  | copy_buffer_to_texture (src dst : Nat) (regions : List BufferTextureCopy)
  | copy_texture_to_buffer (src dst : Nat) (regions : List BufferTextureCopy)
  | copy_texture_to_texture (src dst : Nat) (regions : List TextureCopy)
  | fill_buffer (buffer : Nat) (range : Nat × Nat) (value : Nat)
deriving DecidableEq, Repr

/-- command `CommandBuffer` restricted to the state the transfer operations
mutate: the two tracker halves and the memory-init action list. -/
structure CommandBuffer where
  tracker_buffers : List (Nat × BufferUse)
  tracker_textures : List ((Nat × TextureSelector) × TextureUse)
  buffer_memory_init_actions : List MemoryInitTrackerAction
deriving DecidableEq, Repr

/-- transfer.rs:97 `CopyError`. -/
inductive CopyError
  | Encoder
  | Transfer (e : TransferError)
deriving DecidableEq, Repr

/-- The registries and the resolved command encoder a transfer operation works
on; `cmd_buf = none` models `CommandBuffer::get_encoder_mut` failing with a
`CommandEncoderError`. -/
structure TransferState where
  cmd_buf : Option CommandBuffer
  buffers : List (Nat × Buffer)
  textures : List (Nat × Texture)
deriving DecidableEq, Repr

/-- Outcome of a transfer operation: the result, the command buffer as left
behind (mutations made before an early return persist, as through the source's
`&mut cmd_buf`), and the hal commands recorded on its encoder. -/
structure CopyResult where
  result : Except CopyError Unit
  cmd_buf : Option CommandBuffer
  commands : List HalCommand
deriving DecidableEq, Repr

/-- transfer.rs:395-463, the tail of `command_encoder_copy_buffer_to_buffer`
after both buffers have been resolved and use-replaced: alignment checks,
bound checks, the size-0 early success, then the memory-init actions, the
barriers and the copy command, recorded against the command-buffer state
`cmd_buf2` left by the tracker phase. -/
def copy_buffer_to_buffer_checks (cmd_buf2 : CommandBuffer)
    (src_buffer dst_buffer : Buffer)
    (src_barrier dst_barrier : Option BufferBarrier)
    (source source_offset destination destination_offset size : Nat) : CopyResult :=
  if size % COPY_BUFFER_ALIGNMENT ≠ 0 then
    ⟨Except.error (CopyError.Transfer (TransferError.UnalignedCopySize size)),
      some cmd_buf2, []⟩
  else if source_offset % COPY_BUFFER_ALIGNMENT ≠ 0 then
    ⟨Except.error (CopyError.Transfer
        (TransferError.UnalignedBufferOffset source_offset)),
      some cmd_buf2, []⟩
  else if destination_offset % COPY_BUFFER_ALIGNMENT ≠ 0 then
    ⟨Except.error (CopyError.Transfer
        (TransferError.UnalignedBufferOffset destination_offset)),
      some cmd_buf2, []⟩
  else
    let source_end_offset := source_offset + size
    let destination_end_offset := destination_offset + size
    if source_end_offset > src_buffer.size then
      ⟨Except.error (CopyError.Transfer (TransferError.BufferOverrun
          source_offset source_end_offset src_buffer.size CopySide.Source)),
        some cmd_buf2, []⟩
    else if destination_end_offset > dst_buffer.size then
      ⟨Except.error (CopyError.Transfer (TransferError.BufferOverrun
          destination_offset destination_end_offset dst_buffer.size
          CopySide.Destination)),
        some cmd_buf2, []⟩
    else if size = 0 then
      ⟨Except.ok (), some cmd_buf2, []⟩
    else
      let cmd_buf3 := { cmd_buf2 with buffer_memory_init_actions :=
        cmd_buf2.buffer_memory_init_actions ++
          ((init_check dst_buffer.initialization_status
              (destination_offset, destination_offset + size)).map
            (fun range =>
              ⟨destination, range, MemoryInitKind.ImplicitlyInitialized⟩)) ++
          ((init_check src_buffer.initialization_status
              (source_offset, source_offset + size)).map
            (fun range =>
              ⟨source, range, MemoryInitKind.NeedsInitializedMemory⟩)) }
      let region : BufferCopy := ⟨source_offset, destination_offset, size⟩
      ⟨Except.ok (), some cmd_buf3,
        [HalCommand.transition_buffers
          (src_barrier.toList ++ dst_barrier.toList),
         HalCommand.copy_buffer_to_buffer source destination [region]]⟩

/-- transfer.rs:330 `command_encoder_copy_buffer_to_buffer`, over the
spec-modelled registries/trackers; tracing is feature-gated off.  The source's
order of operations is preserved: same-buffer check, encoder resolution,
source then destination `use_replace` with raw-handle and usage checks, then
the validation/recording tail `copy_buffer_to_buffer_checks`. -/
def command_encoder_copy_buffer_to_buffer (st : TransferState) (source : Nat)
    (source_offset : Nat) (destination : Nat) (destination_offset : Nat)
    (size : Nat) : CopyResult :=
  if source = destination then
    ⟨Except.error (CopyError.Transfer TransferError.SameSourceDestinationBuffer),
      st.cmd_buf, []⟩
  else
    match st.cmd_buf with
    | none => ⟨Except.error CopyError.Encoder, none, []⟩
    | some cmd_buf =>
      match buffer_use_replace cmd_buf.tracker_buffers st.buffers source
          BufferUse.COPY_SRC with
      | Except.error _ =>
        ⟨Except.error (CopyError.Transfer (TransferError.InvalidBuffer source)),
          some cmd_buf, []⟩
      | Except.ok (src_buffer, src_pending, tracker1) =>
        let cmd_buf1 := { cmd_buf with tracker_buffers := tracker1 }
        if src_buffer.raw = false then
          ⟨Except.error (CopyError.Transfer (TransferError.InvalidBuffer source)),
            some cmd_buf1, []⟩
        else if src_buffer.usage.copy_src = false then
          ⟨Except.error (CopyError.Transfer TransferError.MissingCopySrcUsageFlag),
            some cmd_buf1, []⟩
        else
          let src_barrier := src_pending.head?
          match buffer_use_replace cmd_buf1.tracker_buffers st.buffers destination
              BufferUse.COPY_DST with
          | Except.error _ =>
            ⟨Except.error (CopyError.Transfer (TransferError.InvalidBuffer destination)),
              some cmd_buf1, []⟩
          | Except.ok (dst_buffer, dst_pending, tracker2) =>
            let cmd_buf2 := { cmd_buf1 with tracker_buffers := tracker2 }
            if dst_buffer.raw = false then
              ⟨Except.error (CopyError.Transfer (TransferError.InvalidBuffer destination)),
                some cmd_buf2, []⟩
            else if dst_buffer.usage.copy_dst = false then
              ⟨Except.error (CopyError.Transfer
                  (TransferError.MissingCopyDstUsageFlag (some destination) none)),
                some cmd_buf2, []⟩
            else
              let dst_barrier := dst_pending.head?
              copy_buffer_to_buffer_checks cmd_buf2 src_buffer dst_buffer
                src_barrier dst_barrier source source_offset destination
                destination_offset size

/-- transfer.rs:466 `command_encoder_copy_buffer_to_texture`, over the
spec-modelled registries/trackers; tracing is feature-gated off.  `none` models
the `.unwrap()` panic on the texture tracker.  The source order is preserved;
in particular the zero-size early success precedes every validation, and the
memory-init extension precedes the forbidden-format check. -/
def command_encoder_copy_buffer_to_texture (st : TransferState)
    (source : ImageCopyBuffer) (destination : ImageCopyTexture)
    (copy_size : Extent3d) : Option CopyResult :=
  match st.cmd_buf with
  | none => some ⟨Except.error CopyError.Encoder, none, []⟩
  | some cmd_buf =>
    if copy_size.width = 0 ∨ copy_size.height = 0 ∨
        copy_size.depth_or_array_layers = 0 then
      some ⟨Except.ok (), some cmd_buf, []⟩
    else
      match extract_texture_selector destination copy_size st.textures with
      | Except.error e => some ⟨Except.error (CopyError.Transfer e), some cmd_buf, []⟩
      | Except.ok (dst_range, dst_base, _) =>
        match buffer_use_replace cmd_buf.tracker_buffers st.buffers source.buffer
            BufferUse.COPY_SRC with
        | Except.error _ =>
          some ⟨Except.error (CopyError.Transfer (TransferError.InvalidBuffer source.buffer)),
            some cmd_buf, []⟩
        | Except.ok (src_buffer, src_pending, tracker1) =>
          let cmd_buf1 := { cmd_buf with tracker_buffers := tracker1 }
          if src_buffer.raw = false then
            some ⟨Except.error (CopyError.Transfer (TransferError.InvalidBuffer source.buffer)),
              some cmd_buf1, []⟩
          else if src_buffer.usage.copy_src = false then
            some ⟨Except.error (CopyError.Transfer TransferError.MissingCopySrcUsageFlag),
              some cmd_buf1, []⟩
          else
            let src_barriers := src_pending
            match texture_use_replace cmd_buf1.tracker_textures st.textures
                destination.texture dst_range TextureUse.COPY_DST with
            | none => none
            | some (dst_texture, dst_pending, tracker2) =>
              let cmd_buf2 := { cmd_buf1 with tracker_textures := tracker2 }
              if dst_texture.raw = false then
                some ⟨Except.error (CopyError.Transfer
                    (TransferError.InvalidTexture destination.texture)),
                  some cmd_buf2, []⟩
              else if dst_texture.desc.usage.copy_dst = false then
                some ⟨Except.error (CopyError.Transfer
                    (TransferError.MissingCopyDstUsageFlag none (some destination.texture))),
                  some cmd_buf2, []⟩
              else
                let dst_barriers := dst_pending
                let format_desc := dst_texture.desc.format
                match validate_texture_copy_range destination dst_texture.desc
                    CopySide.Destination copy_size with
                | Except.error e =>
                  some ⟨Except.error (CopyError.Transfer e), some cmd_buf2, []⟩
                | Except.ok (hal_copy_size, array_layer_count) =>
                  match validate_linear_texture_data source.layout
                      dst_texture.desc.format src_buffer.size CopySide.Source
                      format_desc.block_size copy_size true with
                  | Except.error e =>
                    some ⟨Except.error (CopyError.Transfer e), some cmd_buf2, []⟩
                  | Except.ok (required_buffer_bytes_in_copy, bytes_per_array_layer) =>
                    let cmd_buf3 := { cmd_buf2 with buffer_memory_init_actions :=
                      cmd_buf2.buffer_memory_init_actions ++
                        ((init_check src_buffer.initialization_status
                            (source.layout.offset,
                              source.layout.offset + required_buffer_bytes_in_copy)).map
                          (fun range =>
                            ⟨source.buffer, range, MemoryInitKind.NeedsInitializedMemory⟩)) }
                    if dst_texture.desc.format.copy_dst_allowed = false then
                      some ⟨Except.error (CopyError.Transfer
                          (TransferError.CopyToForbiddenTextureFormat dst_texture.desc.format)),
                        some cmd_buf3, []⟩
                    else
                      let regions := (List.range array_layer_count).map
                        (fun rel_array_layer =>
                          ({ buffer_layout := { source.layout with offset :=
                              source.layout.offset + rel_array_layer * bytes_per_array_layer }
                             texture_base := { dst_base with array_layer :=
                              dst_base.array_layer + rel_array_layer }
                             size := hal_copy_size } : BufferTextureCopy))
                      some ⟨Except.ok (), some cmd_buf3,
                        [HalCommand.transition_buffers src_barriers,
                         HalCommand.transition_textures dst_barriers,
                         HalCommand.copy_buffer_to_texture source.buffer
                           destination.texture regions]⟩

/-- transfer.rs:589 `command_encoder_copy_texture_to_buffer`, over the
spec-modelled registries/trackers; tracing is feature-gated off.  `none` models
the `.unwrap()` panic on the texture tracker.  The zero-size early success
precedes every validation; here the forbidden-format check precedes the
memory-init extension (unlike buffer-to-texture). -/
def command_encoder_copy_texture_to_buffer (st : TransferState)
    (source : ImageCopyTexture) (destination : ImageCopyBuffer)
    (copy_size : Extent3d) : Option CopyResult :=
  match st.cmd_buf with
  | none => some ⟨Except.error CopyError.Encoder, none, []⟩
  | some cmd_buf =>
    if copy_size.width = 0 ∨ copy_size.height = 0 ∨
        copy_size.depth_or_array_layers = 0 then
      some ⟨Except.ok (), some cmd_buf, []⟩
    else
      match extract_texture_selector source copy_size st.textures with
      | Except.error e => some ⟨Except.error (CopyError.Transfer e), some cmd_buf, []⟩
      | Except.ok (src_range, src_base, _) =>
        match texture_use_replace cmd_buf.tracker_textures st.textures
            source.texture src_range TextureUse.COPY_SRC with
        | none => none
        | some (src_texture, src_pending, tracker1) =>
          let cmd_buf1 := { cmd_buf with tracker_textures := tracker1 }
          if src_texture.raw = false then
            some ⟨Except.error (CopyError.Transfer
                (TransferError.InvalidTexture source.texture)),
              some cmd_buf1, []⟩
          else if src_texture.desc.usage.copy_src = false then
            some ⟨Except.error (CopyError.Transfer TransferError.MissingCopySrcUsageFlag),
              some cmd_buf1, []⟩
          else
            let src_barriers := src_pending
            match buffer_use_replace cmd_buf1.tracker_buffers st.buffers
                destination.buffer BufferUse.COPY_DST with
            | Except.error _ =>
              some ⟨Except.error (CopyError.Transfer
                  (TransferError.InvalidBuffer destination.buffer)),
                some cmd_buf1, []⟩
            | Except.ok (dst_buffer, dst_pending, tracker2) =>
              let cmd_buf2 := { cmd_buf1 with tracker_buffers := tracker2 }
              if dst_buffer.raw = false then
                some ⟨Except.error (CopyError.Transfer
                    (TransferError.InvalidBuffer destination.buffer)),
                  some cmd_buf2, []⟩
              else if dst_buffer.usage.copy_dst = false then
                some ⟨Except.error (CopyError.Transfer
                    (TransferError.MissingCopyDstUsageFlag (some destination.buffer) none)),
                  some cmd_buf2, []⟩
              else
                let dst_barriers := dst_pending
                let format_desc := src_texture.desc.format
                match validate_texture_copy_range source src_texture.desc
                    CopySide.Source copy_size with
                | Except.error e =>
                  some ⟨Except.error (CopyError.Transfer e), some cmd_buf2, []⟩
                | Except.ok (hal_copy_size, array_layer_count) =>
                  match validate_linear_texture_data destination.layout
                      src_texture.desc.format dst_buffer.size CopySide.Destination
                      format_desc.block_size copy_size true with
                  | Except.error e =>
                    some ⟨Except.error (CopyError.Transfer e), some cmd_buf2, []⟩
                  | Except.ok (required_buffer_bytes_in_copy, bytes_per_array_layer) =>
                    if src_texture.desc.format.copy_src_allowed = false then
                      some ⟨Except.error (CopyError.Transfer
                          (TransferError.CopyFromForbiddenTextureFormat
                            src_texture.desc.format)),
                        some cmd_buf2, []⟩
                    else
                      let cmd_buf3 := { cmd_buf2 with buffer_memory_init_actions :=
                        cmd_buf2.buffer_memory_init_actions ++
                          ((init_check dst_buffer.initialization_status
                              (destination.layout.offset,
                                destination.layout.offset + required_buffer_bytes_in_copy)).map
                            (fun range =>
                              ⟨destination.buffer, range,
                                MemoryInitKind.ImplicitlyInitialized⟩)) }
                      let regions := (List.range array_layer_count).map
                        (fun rel_array_layer =>
                          ({ buffer_layout := { destination.layout with offset :=
                              destination.layout.offset +
                                rel_array_layer * bytes_per_array_layer }
                             texture_base := { src_base with array_layer :=
                              src_base.array_layer + rel_array_layer }
                             size := hal_copy_size } : BufferTextureCopy))
                      some ⟨Except.ok (), some cmd_buf3,
                        [HalCommand.transition_buffers dst_barriers,
                         HalCommand.transition_textures src_barriers,
                         HalCommand.copy_texture_to_buffer source.texture
                           destination.buffer regions]⟩

/-- transfer.rs:721 `command_encoder_copy_texture_to_texture`, over the
spec-modelled registries/trackers; tracing is feature-gated off.  `none` models
the `.unwrap()` panics on the texture tracker.  The zero-size early success
precedes every validation; the source and destination transitions are gathered
into a single barrier vector before emission. -/
def command_encoder_copy_texture_to_texture (st : TransferState)
    (source : ImageCopyTexture) (destination : ImageCopyTexture)
    (copy_size : Extent3d) : Option CopyResult :=
  match st.cmd_buf with
  | none => some ⟨Except.error CopyError.Encoder, none, []⟩
  | some cmd_buf =>
    if copy_size.width = 0 ∨ copy_size.height = 0 ∨
        copy_size.depth_or_array_layers = 0 then
      some ⟨Except.ok (), some cmd_buf, []⟩
    else
      match extract_texture_selector source copy_size st.textures with
      | Except.error e => some ⟨Except.error (CopyError.Transfer e), some cmd_buf, []⟩
      | Except.ok (src_range, src_tex_base, _) =>
        match extract_texture_selector destination copy_size st.textures with
        | Except.error e => some ⟨Except.error (CopyError.Transfer e), some cmd_buf, []⟩
        | Except.ok (dst_range, dst_tex_base, _) =>
          if src_tex_base.aspect ≠ dst_tex_base.aspect then
            some ⟨Except.error (CopyError.Transfer TransferError.MismatchedAspects),
              some cmd_buf, []⟩
          else
            match texture_use_replace cmd_buf.tracker_textures st.textures
                source.texture src_range TextureUse.COPY_SRC with
            | none => none
            | some (src_texture, src_pending, tracker1) =>
              let cmd_buf1 := { cmd_buf with tracker_textures := tracker1 }
              if src_texture.raw = false then
                some ⟨Except.error (CopyError.Transfer
                    (TransferError.InvalidTexture source.texture)),
                  some cmd_buf1, []⟩
              else if src_texture.desc.usage.copy_src = false then
                some ⟨Except.error (CopyError.Transfer
                    TransferError.MissingCopySrcUsageFlag),
                  some cmd_buf1, []⟩
              else
                let barriers1 := src_pending
                match texture_use_replace cmd_buf1.tracker_textures st.textures
                    destination.texture dst_range TextureUse.COPY_DST with
                | none => none
                | some (dst_texture, dst_pending, tracker2) =>
                  let cmd_buf2 := { cmd_buf1 with tracker_textures := tracker2 }
                  if dst_texture.raw = false then
                    some ⟨Except.error (CopyError.Transfer
                        (TransferError.InvalidTexture destination.texture)),
                      some cmd_buf2, []⟩
                  else if dst_texture.desc.usage.copy_dst = false then
                    some ⟨Except.error (CopyError.Transfer
                        (TransferError.MissingCopyDstUsageFlag none
                          (some destination.texture))),
                      some cmd_buf2, []⟩
                  else
                    let barriers := barriers1 ++ dst_pending
                    match validate_texture_copy_range source src_texture.desc
                        CopySide.Source copy_size with
                    | Except.error e =>
                      some ⟨Except.error (CopyError.Transfer e), some cmd_buf2, []⟩
                    | Except.ok (src_copy_size, array_layer_count) =>
                      match validate_texture_copy_range destination dst_texture.desc
                          CopySide.Destination copy_size with
                      | Except.error e =>
                        some ⟨Except.error (CopyError.Transfer e), some cmd_buf2, []⟩
                      | Except.ok (dst_copy_size, _) =>
                        let hal_copy_size : CopyExtent :=
                          ⟨min src_copy_size.width dst_copy_size.width,
                           min src_copy_size.height dst_copy_size.height,
                           min src_copy_size.depth dst_copy_size.depth⟩
                        let regions := (List.range array_layer_count).map
                          (fun rel_array_layer =>
                            ({ src_base := { src_tex_base with array_layer :=
                                src_tex_base.array_layer + rel_array_layer }
                               dst_base := { dst_tex_base with array_layer :=
                                dst_tex_base.array_layer + rel_array_layer }
                               size := hal_copy_size } : TextureCopy))
                        some ⟨Except.ok (), some cmd_buf2,
                          [HalCommand.transition_textures barriers,
                           HalCommand.copy_texture_to_texture source.texture
                             destination.texture regions]⟩

set_option maxHeartbeats 2000000 in
/-- Case analysis on the validation tail of buffer-to-buffer copy: either it
succeeds with a non-zero size, or it records no command and leaves the
command-buffer state exactly as it received it. -/
theorem copy_buffer_to_buffer_checks_cases (cmd_buf2 : CommandBuffer)
    (src_buffer dst_buffer : Buffer) (src_barrier dst_barrier : Option BufferBarrier)
    (source source_offset destination destination_offset size : Nat)
    (res : Except CopyError Unit) (rcb : Option CommandBuffer) (rcmds : List HalCommand)
    (hr : copy_buffer_to_buffer_checks cmd_buf2 src_buffer dst_buffer src_barrier
      dst_barrier source source_offset destination destination_offset size =
      ⟨res, rcb, rcmds⟩) :
    (res = Except.ok () ∧ size ≠ 0) ∨ (rcmds = [] ∧ rcb = some cmd_buf2) := by
  unfold copy_buffer_to_buffer_checks at hr
  simp only [] at hr
  repeat' split at hr
  all_goals simp only [CopyResult.mk.injEq] at hr
  all_goals obtain ⟨hres, hcb, hcmds⟩ := hr
  all_goals subst hres
  all_goals subst hcmds
  all_goals
    first
      | (left; exact ⟨rfl, by assumption⟩)
      | (right; exact ⟨rfl, hcb.symm⟩)

set_option maxHeartbeats 2000000 in
/-- Case analysis on `command_encoder_copy_buffer_to_buffer`: either it
succeeds with a non-zero size, or it records no backend command and leaves the
memory-init action list unchanged (the tracker may have changed). -/
theorem b2b_cases (st : TransferState)
    (source source_offset destination destination_offset size : Nat)
    (res : Except CopyError Unit) (rcb : Option CommandBuffer) (rcmds : List HalCommand)
    (hr : command_encoder_copy_buffer_to_buffer st source source_offset destination
      destination_offset size = ⟨res, rcb, rcmds⟩) :
    (res = Except.ok () ∧ size ≠ 0)
    ∨ (rcmds = [] ∧ rcb.map CommandBuffer.buffer_memory_init_actions =
        st.cmd_buf.map CommandBuffer.buffer_memory_init_actions) := by
  unfold command_encoder_copy_buffer_to_buffer at hr
  simp only [] at hr
  repeat' split at hr
  all_goals
    first
      | (rcases copy_buffer_to_buffer_checks_cases _ _ _ _ _ _ _ _ _ _ res rcb rcmds hr
            with ⟨hok, hsz⟩ | ⟨hcmds, hcb⟩ <;>
          [exact Or.inl ⟨hok, hsz⟩;
           (right; subst hcb; exact ⟨hcmds, by simp_all⟩)])
      | (simp only [CopyResult.mk.injEq] at hr
         obtain ⟨hres, hcb, hcmds⟩ := hr
         subst hres
         subst hcmds
         subst hcb
         right
         simp_all)

/-- A live 64-byte buffer with both copy usages and no uninitialized ranges. -/
def bufEx : Buffer := ⟨true, 64, ⟨true, true⟩, []⟩

/-- A freshly opened command buffer: empty trackers, no memory-init actions. -/
def cbEmpty : CommandBuffer := ⟨[], [], []⟩

/-- A state with a resolvable encoder and two valid distinct buffers. -/
def stEx : TransferState := ⟨some cbEmpty, [(1, bufEx), (2, bufEx)], []⟩

/-- C4 counterexample: `copy_buffer_to_buffer` with `size = 0` does not succeed
for every choice of offsets: with a misaligned source offset of 1 (and two
valid, distinct buffers) it fails with `UnalignedBufferOffset 1`, because the
size-0 early return sits after the alignment and bound validation
(transfer.rs:426 versus transfer.rs:395-424). -/
theorem zero_b2b_not_unconditional_cex :
    (command_encoder_copy_buffer_to_buffer stEx 1 1 2 0 0).result =
      Except.error (CopyError.Transfer (TransferError.UnalignedBufferOffset 1))
    ∧ (command_encoder_copy_buffer_to_buffer stEx 1 1 2 0 0).result ≠
      Except.ok () := by decide

/-- C4 (amended): for the three texture-copy operations, with a resolvable
encoder, a zero copy dimension returns success immediately — before any
validation, tracker mutation or backend command.  For `copy_buffer_to_buffer`,
`size = 0` records no backend command and no memory-init action, but only
after the same-buffer, resolution, usage, alignment and bound validation has
run (so it can still fail, and the tracker may already have been mutated). -/
theorem zero_sized_copies_effects (st : TransferState) (cb : CommandBuffer)
    (src_ib : ImageCopyBuffer) (dst_it src_it dst_it2 : ImageCopyTexture)
    (cs : Extent3d) (source source_offset destination destination_offset : Nat)
    (hcb : st.cmd_buf = some cb)
    (hz : cs.width = 0 ∨ cs.height = 0 ∨ cs.depth_or_array_layers = 0) :
    command_encoder_copy_buffer_to_texture st src_ib dst_it cs =
        some ⟨Except.ok (), some cb, []⟩
    ∧ command_encoder_copy_texture_to_buffer st src_it src_ib cs =
        some ⟨Except.ok (), some cb, []⟩
    ∧ command_encoder_copy_texture_to_texture st src_it dst_it2 cs =
        some ⟨Except.ok (), some cb, []⟩
    ∧ (command_encoder_copy_buffer_to_buffer st source source_offset destination
        destination_offset 0).commands = []
    ∧ (command_encoder_copy_buffer_to_buffer st source source_offset destination
        destination_offset 0).cmd_buf.map CommandBuffer.buffer_memory_init_actions =
      st.cmd_buf.map CommandBuffer.buffer_memory_init_actions := by
  have hb2b : (command_encoder_copy_buffer_to_buffer st source source_offset destination
        destination_offset 0).commands = []
      ∧ (command_encoder_copy_buffer_to_buffer st source source_offset destination
          destination_offset 0).cmd_buf.map CommandBuffer.buffer_memory_init_actions =
        st.cmd_buf.map CommandBuffer.buffer_memory_init_actions := by
    rcases hr : command_encoder_copy_buffer_to_buffer st source source_offset destination
        destination_offset 0 with ⟨res, rcb, rcmds⟩
    rcases b2b_cases st source source_offset destination destination_offset 0
        res rcb rcmds hr with ⟨_, hsz⟩ | ⟨hcmds, hinit⟩
    · exact absurd rfl hsz
    · exact ⟨hcmds, hinit⟩
  refine ⟨?_, ?_, ?_, hb2b.1, hb2b.2⟩
  · unfold command_encoder_copy_buffer_to_texture
    rw [hcb]
    simp only []
    rw [if_pos hz]
  · unfold command_encoder_copy_texture_to_buffer
    rw [hcb]
    simp only []
    rw [if_pos hz]
  · unfold command_encoder_copy_texture_to_texture
    rw [hcb]
    simp only []
    rw [if_pos hz]

/-- Witness of `zero_sized_copies_effects` on `stEx` with copy size 0×5×5 and
aligned offsets. -/
theorem zero_sized_copies_effects_witness :
    command_encoder_copy_buffer_to_texture stEx ⟨1, ⟨0, none, none⟩⟩
        ⟨7, 0, ⟨0, 0, 0⟩, TextureAspect.All⟩ ⟨0, 5, 5⟩ =
      some ⟨Except.ok (), some cbEmpty, []⟩
    ∧ command_encoder_copy_texture_to_buffer stEx ⟨7, 0, ⟨0, 0, 0⟩, TextureAspect.All⟩
        ⟨1, ⟨0, none, none⟩⟩ ⟨0, 5, 5⟩ =
      some ⟨Except.ok (), some cbEmpty, []⟩
    ∧ command_encoder_copy_texture_to_texture stEx ⟨7, 0, ⟨0, 0, 0⟩, TextureAspect.All⟩
        ⟨8, 0, ⟨0, 0, 0⟩, TextureAspect.All⟩ ⟨0, 5, 5⟩ =
      some ⟨Except.ok (), some cbEmpty, []⟩
    ∧ (command_encoder_copy_buffer_to_buffer stEx 1 4 2 8 0).commands = []
    ∧ (command_encoder_copy_buffer_to_buffer stEx 1 4 2 8 0).cmd_buf.map
        CommandBuffer.buffer_memory_init_actions =
      stEx.cmd_buf.map CommandBuffer.buffer_memory_init_actions :=
  zero_sized_copies_effects stEx cbEmpty ⟨1, ⟨0, none, none⟩⟩
    ⟨7, 0, ⟨0, 0, 0⟩, TextureAspect.All⟩ ⟨7, 0, ⟨0, 0, 0⟩, TextureAspect.All⟩
    ⟨8, 0, ⟨0, 0, 0⟩, TextureAspect.All⟩ ⟨0, 5, 5⟩ 1 4 2 8 (by decide) (Or.inl rfl)

/-- C5 counterexample: a validation error is not atomic on tracker state: an
unaligned size of 2 returns `UnalignedCopySize 2` after both `use_replace`
calls have already recorded COPY_SRC/COPY_DST in the tracker
(transfer.rs:362-393 run before the alignment checks at transfer.rs:395). -/
theorem error_after_tracker_mutation_cex :
    (command_encoder_copy_buffer_to_buffer stEx 1 0 2 0 2).result =
      Except.error (CopyError.Transfer (TransferError.UnalignedCopySize 2))
    ∧ (command_encoder_copy_buffer_to_buffer stEx 1 0 2 0 2).cmd_buf.map
        CommandBuffer.tracker_buffers ≠
      stEx.cmd_buf.map CommandBuffer.tracker_buffers := by decide

/-- C5 (amended): in `copy_buffer_to_buffer`, a validation error can leave
tracker state mutated (see the counterexample), but memory-init bookkeeping
and backend commands are recorded only after all validation succeeds: on any
error the command list is empty and the memory-init action list unchanged. -/
theorem validation_error_records_nothing (st : TransferState)
    (source source_offset destination destination_offset size : Nat) (e : CopyError)
    (herr : (command_encoder_copy_buffer_to_buffer st source source_offset destination
      destination_offset size).result = Except.error e) :
    (command_encoder_copy_buffer_to_buffer st source source_offset destination
      destination_offset size).commands = []
    ∧ (command_encoder_copy_buffer_to_buffer st source source_offset destination
        destination_offset size).cmd_buf.map CommandBuffer.buffer_memory_init_actions =
      st.cmd_buf.map CommandBuffer.buffer_memory_init_actions := by
  rcases hr : command_encoder_copy_buffer_to_buffer st source source_offset destination
      destination_offset size with ⟨res, rcb, rcmds⟩
  rw [hr] at herr
  simp only [] at herr
  rcases b2b_cases st source source_offset destination destination_offset size
      res rcb rcmds hr with ⟨hok, _⟩ | ⟨hcmds, hinit⟩
  · rw [herr] at hok
    exact (Except.noConfusion hok)
  · exact ⟨hcmds, hinit⟩

/-- Witness of `validation_error_records_nothing` at the unaligned-size
error on `stEx`. -/
theorem validation_error_records_nothing_witness :
    (command_encoder_copy_buffer_to_buffer stEx 1 0 2 0 2).commands = []
    ∧ (command_encoder_copy_buffer_to_buffer stEx 1 0 2 0 2).cmd_buf.map
        CommandBuffer.buffer_memory_init_actions =
      stEx.cmd_buf.map CommandBuffer.buffer_memory_init_actions :=
  validation_error_records_nothing stEx 1 0 2 0 2
    (CopyError.Transfer (TransferError.UnalignedCopySize 2)) (by decide)

/-! ### C7: `Queue::initialize_buffer_memory` (queue.rs:226-276)

The drained memory-init ranges of each buffer are sorted by start and touching
ranges are coalesced in a downward loop over adjacent pairs; the loop asserts
that the sorted ranges do not overlap, and the emission loop asserts that every
coalesced endpoint is 4-byte aligned.  Panics (`assert!`, `.unwrap()`) are
modelled as `none`. -/

/-- `Vec::swap_remove(i)`: replace the element at `i` with the last element
and pop (the order of the tail is not preserved), as used at queue.rs:246. -/
def swap_remove (l : List (Nat × Nat)) (i : Nat) : List (Nat × Nat) :=
  (l.set i (l.getLast?.getD (0, 0))).dropLast

/-- The range-coalescing loop of `Queue::initialize_buffer_memory`
(queue.rs:241-248): `for i in (1..ranges.len()).rev()`, written with the loop
counter as the second argument (the call with counter `i + 1` handles the Rust
iteration at index `i + 1`, comparing `ranges[i]` and `ranges[i + 1]`).  The
`assert!(ranges[i - 1].end <= ranges[i].start)` panic is modelled as `none`;
touching ranges are merged in place and the right one is swap-removed. -/
def coalesce_loop : List (Nat × Nat) → Nat → Option (List (Nat × Nat))
  | ranges, 0 => some ranges
  | ranges, i + 1 =>
    let a := ranges.getD i (0, 0)
    let b := ranges.getD (i + 1) (0, 0)
    if a.2 ≤ b.1 then
      if b.1 = a.2 then
        coalesce_loop (swap_remove (ranges.set i (a.1, b.2)) (i + 1)) i
      else
        coalesce_loop ranges i
    else
      none

/-- The per-buffer normalization of `Queue::initialize_buffer_memory`
(queue.rs:240-248): sort the drained ranges by `start`
(`sort_by(|a, b| a.start.cmp(&b.start))`, a stable sort, embedded as
`mergeSort` on the first component) and run the coalescing loop from the top
index downwards. -/
def normalize_ranges (ranges : List (Nat × Nat)) : Option (List (Nat × Nat)) :=
  let sorted := ranges.mergeSort (fun a b => a.1 ≤ b.1)
  coalesce_loop sorted (sorted.length - 1)

/-- The specification's description of coalescing: walk the sorted list left
to right and merge each pair of touching neighbours
(`range[i-1].end == range[i].start`).  This is the definition the claim's
wording describes; the loop of the source is proved to agree with it up to
permutation. -/
def specCoalesce : List (Nat × Nat) → List (Nat × Nat)
  | [] => []
  | [r] => [r]
  | r1 :: r2 :: rest =>
    if r2.1 = r1.2 then specCoalesce ((r1.1, r2.2) :: rest)
    else r1 :: specCoalesce (r2 :: rest)
termination_by l => l.length

/-- Modelled from the spec: `BufferTracker::change_replace_tracked`
(queue.rs:251-255; the track module is not under the embedded sources) —
records the new use for the buffer without requiring it to be resolvable,
returning the pending transition when a different use was previously
recorded. -/
def change_replace_tracked (tracker : List (Nat × BufferUse)) (id : Nat)
    (usage : BufferUse) : List BufferBarrier × List (Nat × BufferUse) :=
  let pending :=
    match assocGet tracker id with
    | some old => if old ≠ usage then [⟨id, old, usage⟩] else []
    | none => []
  (pending, assocSet tracker id usage)

/-- The zero-fill emission loop of `Queue::initialize_buffer_memory`
(queue.rs:265-272): per coalesced range, assert that start and end are 4-byte
aligned (the panic is modelled as `none`) and record a `fill_buffer` of the
range with value 0. -/
def fill_ranges (buffer_id : Nat) : List (Nat × Nat) → Option (List HalCommand)
  | [] => some []
  | r :: rest =>
    if r.1 % 4 = 0 then
      if r.2 % 4 = 0 then
        match fill_ranges buffer_id rest with
        | some cmds => some (HalCommand.fill_buffer buffer_id r 0 :: cmds)
        | none => none
      else none
    else none

/-- The per-buffer body of `Queue::initialize_buffer_memory`
(queue.rs:238-273): sort and coalesce the drained ranges (assertion panics as
`none`), change-replace the buffer to COPY_DST in the device tracker, look the
buffer up in the storage (the `.unwrap()` panic as `none`), fail with
`DestroyedBuffer` when its backend handle is gone, and otherwise record the
transition followed by one zero-fill per coalesced range. -/
def initialize_buffer_memory_buffer (tracker : List (Nat × BufferUse))
    (storage : List (Nat × Buffer)) (buffer_id : Nat)
    (ranges : List (Nat × Nat)) :
    Option (Except Nat (List (Nat × BufferUse) × List HalCommand)) :=
  match normalize_ranges ranges with
  | none => none
  | some coalesced =>
    let tr := change_replace_tracked tracker buffer_id BufferUse.COPY_DST
    match assocGet storage buffer_id with
    | none => none
    | some buffer =>
      if buffer.raw then
        match fill_ranges buffer_id coalesced with
        | none => none
        | some fills =>
          some (Except.ok (tr.2, HalCommand.transition_buffers tr.1 :: fills))
      else some (Except.error buffer_id)

/-- `specCoalesce` distributes over appending a final pair: the last two
elements merge exactly when they touch. -/
theorem specCoalesce_append_pair (xs : List (Nat × Nat)) (v w : Nat × Nat) :
    specCoalesce (xs ++ [v, w]) =
      if w.1 = v.2 then specCoalesce (xs ++ [(v.1, w.2)])
      else specCoalesce (xs ++ [v]) ++ [w] := by
  induction xs using specCoalesce.induct with
  | case1 =>
    by_cases h : w.1 = v.2 <;> simp [specCoalesce, h]
  | case2 r =>
    by_cases h1 : v.1 = r.2 <;> by_cases h2 : w.1 = v.2 <;>
      simp [specCoalesce, h1, h2]
  | case3 r1 r2 rest h ih =>
    by_cases hw : w.1 = v.2 <;> simp [specCoalesce, h, hw] at ih ⊢ <;> exact ih
  | case4 r1 r2 rest h ih =>
    by_cases hw : w.1 = v.2 <;> simp [specCoalesce, h, hw] at ih ⊢ <;> exact ih

/-- `swap_remove` leaves the prefix before the removed index unchanged. -/
theorem swap_remove_take (l : List (Nat × Nat)) (i : Nat) (h : i < l.length) :
    (swap_remove l i).take i = l.take i := by
  unfold swap_remove
  rw [List.set_eq_take_append_cons_drop, if_pos h]
  rcases hd : l.drop (i + 1) with _ | ⟨y, d⟩
  · rw [List.dropLast_concat, List.take_take]
    simp
  · rw [List.dropLast_append_of_ne_nil _ (by simp)]
    rw [List.take_append_eq_append_take, List.length_take_of_le (by omega), Nat.sub_self]
    simp [List.take_take]

/-- After `swap_remove l i`, the suffix from index `i` is a permutation of the
old suffix from `i + 1`. -/
theorem swap_remove_drop (l : List (Nat × Nat)) (i : Nat) (h : i < l.length) :
    ((swap_remove l i).drop i).Perm (l.drop (i + 1)) := by
  unfold swap_remove
  rw [List.set_eq_take_append_cons_drop, if_pos h]
  rcases hd : l.drop (i + 1) with _ | ⟨y, d⟩
  · rw [List.dropLast_concat]
    rw [List.drop_eq_nil_of_le (by rw [List.length_take_of_le (by omega)])]
  · have hg : l.getLast? = some ((y :: d).getLast (by simp)) := by
      conv_lhs => rw [← List.take_append_drop (i + 1) l]
      rw [List.getLast?_append, hd, List.getLast?_eq_getLast (y :: d) (by simp)]
      rfl
    rw [List.dropLast_append_of_ne_nil _ (by simp)]
    rw [List.drop_append_eq_append_drop, List.length_take_of_le (by omega), Nat.sub_self]
    rw [List.drop_eq_nil_of_le (by rw [List.length_take_of_le (by omega)])]
    rw [List.nil_append, List.drop_zero, hg]
    simp only [Option.getD_some]
    have hrepr : (y :: d).dropLast ++ [(y :: d).getLast (by simp)] = y :: d :=
      List.dropLast_append_getLast? _ (by rw [List.getLast?_eq_getLast _ (by simp)]; rfl)
    have hps := (List.perm_append_singleton ((y :: d).getLast (by simp)) ((y :: d).dropLast)).symm
    rw [hrepr] at hps
    exact hps

/-- The coalescing loop, run with counter `j` over a prefix `l.take (j + 1)`
that is sorted-disjoint (`Chain'` of `end ≤ start`) and has nonempty ranges,
never fires the non-overlap assertion and returns a permutation of the
specification's left-to-right coalescing of that prefix followed by the
untouched suffix. -/
theorem coalesce_loop_spec : ∀ (j : Nat) (l : List (Nat × Nat)),
    j + 1 ≤ l.length →
    List.Chain' (fun a b : Nat × Nat => a.2 ≤ b.1) (l.take (j + 1)) →
    (∀ r ∈ l.take (j + 1), r.1 < r.2) →
    ∃ out, coalesce_loop l j = some out ∧
      out.Perm (specCoalesce (l.take (j + 1)) ++ l.drop (j + 1)) := by
  intro j
  induction j with
  | zero =>
    intro l _ _ _
    refine ⟨l, rfl, ?_⟩
    rcases l with _ | ⟨x, t⟩
    · rw [show specCoalesce (List.take 1 ([] : List (Nat × Nat))) = [] from by simp [specCoalesce]]
      simp
    · rw [show List.take 1 (x :: t) = [x] from rfl, show List.drop 1 (x :: t) = t from rfl,
        show specCoalesce [x] = [x] from by simp [specCoalesce]]
      exact List.Perm.refl _
  | succ j ih =>
    intro l hlen hchain hne
    have hj1 : j + 1 < l.length := by omega
    have hj : j < l.length := by omega
    have htakelen : (l.take (j + 1 + 1)).length = j + 2 := List.length_take_of_le (by omega)
    -- the processed prefix decomposes as take j ++ [l[j], l[j+1]]
    have htake1 : l.take (j + 1) = l.take j ++ [l[j]] := by
      rw [List.take_succ]
      rw [List.getElem?_eq_getElem hj]
      rfl
    have htake2 : l.take (j + 1 + 1) = l.take j ++ [l[j], l[j + 1]] := by
      rw [List.take_succ, List.getElem?_eq_getElem hj1, htake1, List.append_assoc]
      rfl
    have hchain_fact : l[j].2 ≤ l[j + 1].1 := by
      have h2 := List.chain'_iff_get.mp hchain j (by rw [htakelen]; omega)
      simpa [List.getElem_take] using h2
    have hchain1 : List.Chain' (fun a b : Nat × Nat => a.2 ≤ b.1) (l.take (j + 1)) := by
      have hpref : l.take (j + 1) <+: l.take (j + 1 + 1) := by
        have := List.take_prefix (j + 1) (l.take (j + 1 + 1))
        rwa [List.take_take, min_eq_left (by omega)] at this
      exact hchain.prefix hpref
    have hne1 : ∀ r ∈ l.take (j + 1), r.1 < r.2 := by
      intro r hr
      apply hne
      have hpref : l.take (j + 1) <+: l.take (j + 1 + 1) := by
        have := List.take_prefix (j + 1) (l.take (j + 1 + 1))
        rwa [List.take_take, min_eq_left (by omega)] at this
      exact hpref.subset hr
    have ha : l.getD j (0, 0) = l[j] := List.getD_eq_getElem l (0, 0) hj
    have hb : l.getD (j + 1) (0, 0) = l[j + 1] := List.getD_eq_getElem l (0, 0) hj1
    rw [coalesce_loop]
    try simp only []
    rw [ha, hb, if_pos hchain_fact]
    by_cases htouch : l[j + 1].1 = l[j].2
    · rw [if_pos htouch]
      have hmlen : (l.set j (l[j].1, l[j + 1].2)).length = l.length := List.length_set l j _
      have hl'len : (swap_remove (l.set j (l[j].1, l[j + 1].2)) (j + 1)).length = l.length - 1 := by
        unfold swap_remove
        rw [List.length_dropLast, List.length_set, hmlen]
      have hmtake : (l.set j (l[j].1, l[j + 1].2)).take (j + 1) =
          l.take j ++ [(l[j].1, l[j + 1].2)] := by
        rw [List.set_eq_take_append_cons_drop, if_pos hj]
        rw [List.take_append_eq_append_take, List.length_take_of_le (by omega)]
        rw [List.take_take, min_eq_right (by omega)]
        have h1 : j + 1 - j = 1 := by omega
        rw [h1]
        rfl
      have hl'take : (swap_remove (l.set j (l[j].1, l[j + 1].2)) (j + 1)).take (j + 1) =
          l.take j ++ [(l[j].1, l[j + 1].2)] := by
        rw [swap_remove_take _ _ (by omega : j + 1 < (l.set j (l[j].1, l[j + 1].2)).length)]
        exact hmtake
      have hmdrop : (l.set j (l[j].1, l[j + 1].2)).drop (j + 1 + 1) = l.drop (j + 1 + 1) := by
        rw [List.drop_set]
        rw [if_pos (by omega)]
      have hl'drop : ((swap_remove (l.set j (l[j].1, l[j + 1].2)) (j + 1)).drop (j + 1)).Perm
          (l.drop (j + 1 + 1)) := by
        have := swap_remove_drop (l.set j (l[j].1, l[j + 1].2)) (j + 1)
          (by rw [hmlen]; omega)
        rwa [hmdrop] at this
      -- chain and nonemptiness on the new prefix
      have hchain_pref : List.Chain' (fun a b : Nat × Nat => a.2 ≤ b.1) (l.take j) ∧
          ∀ x ∈ (l.take j).getLast?, x.2 ≤ l[j].1 := by
        have := List.chain'_append.mp (htake1 ▸ hchain1)
        exact ⟨this.1, fun x hx => by
          have := this.2.2 x hx l[j] rfl
          exact this⟩
      have hchain' : List.Chain' (fun a b : Nat × Nat => a.2 ≤ b.1)
          ((swap_remove (l.set j (l[j].1, l[j + 1].2)) (j + 1)).take (j + 1)) := by
        rw [hl'take]
        rw [List.chain'_append]
        refine ⟨hchain_pref.1, List.chain'_singleton _, ?_⟩
        intro x hx y hy
        simp at hy
        rw [← hy]
        exact hchain_pref.2 x hx
      have hne' : ∀ r ∈ (swap_remove (l.set j (l[j].1, l[j + 1].2)) (j + 1)).take (j + 1),
          r.1 < r.2 := by
        rw [hl'take]
        intro r hr
        rcases List.mem_append.mp hr with hr | hr
        · apply hne1
          rw [htake1]
          exact List.mem_append.mpr (Or.inl hr)
        · simp at hr
          rw [hr]
          have h1 : l[j].1 < l[j].2 := by
            apply hne1
            rw [htake1]
            exact List.mem_append.mpr (Or.inr (List.mem_singleton.mpr rfl))
          have h2 : l[j + 1].1 < l[j + 1].2 := by
            apply hne
            rw [htake2]
            refine List.mem_append.mpr (Or.inr ?_)
            exact List.mem_cons.mpr (Or.inr (List.mem_singleton.mpr rfl))
          change l[j].1 < l[j + 1].2
          omega
      obtain ⟨out, hloop, hperm⟩ := ih (swap_remove (l.set j (l[j].1, l[j + 1].2)) (j + 1))
        (by rw [hl'len]; omega) hchain' hne'
      refine ⟨out, hloop, ?_⟩
      have hspec : specCoalesce ((swap_remove (l.set j (l[j].1, l[j + 1].2)) (j + 1)).take (j + 1)) =
          specCoalesce (l.take (j + 1 + 1)) := by
        rw [hl'take, htake2]
        have := specCoalesce_append_pair (l.take j) l[j] l[j + 1]
        rw [if_pos htouch] at this
        exact this.symm
      rw [hspec] at hperm
      exact hperm.trans (List.Perm.append_left _ hl'drop)
    · rw [if_neg htouch]
      obtain ⟨out, hloop, hperm⟩ := ih l (by omega) hchain1 hne1
      refine ⟨out, hloop, ?_⟩
      have hspec : specCoalesce (l.take (j + 1 + 1)) =
          specCoalesce (l.take (j + 1)) ++ [l[j + 1]] := by
        rw [htake2, htake1]
        have := specCoalesce_append_pair (l.take j) l[j] l[j + 1]
        rw [if_neg htouch] at this
        exact this
      rw [hspec]
      have hdrop : l.drop (j + 1) = l[j + 1] :: l.drop (j + 1 + 1) :=
        List.drop_eq_getElem_cons hj1
      rw [hdrop] at hperm
      have : specCoalesce (l.take (j + 1)) ++ l[j + 1] :: l.drop (j + 1 + 1) =
          (specCoalesce (l.take (j + 1)) ++ [l[j + 1]]) ++ l.drop (j + 1 + 1) := by
        simp
      rw [this] at hperm
      exact hperm

/-- Every endpoint of a coalesced range is an endpoint of some input range,
stated for an arbitrary predicate on endpoints. -/
theorem specCoalesce_endpoints (P : Nat → Prop) :
    ∀ (l : List (Nat × Nat)), (∀ r ∈ l, P r.1 ∧ P r.2) →
      ∀ r ∈ specCoalesce l, P r.1 ∧ P r.2 := by
  intro l
  induction l using specCoalesce.induct with
  | case1 =>
    intro _ r hr
    simp [specCoalesce] at hr
  | case2 =>
    intro h r hr
    simp [specCoalesce] at hr
    subst hr
    exact h r (by simp)
  | case3 =>
    rename_i r1 r2 rest htouch ih
    intro h r hr
    simp only [specCoalesce, if_pos htouch] at hr
    refine ih ?_ r hr
    intro s hs
    rcases List.mem_cons.mp hs with hs | hs
    · subst hs
      exact ⟨(h r1 (by simp)).1, (h r2 (by simp)).2⟩
    · exact h s (by simp [hs])
  | case4 =>
    rename_i r1 r2 rest htouch ih
    intro h r hr
    simp only [specCoalesce, if_neg htouch] at hr
    rcases List.mem_cons.mp hr with hr | hr
    · subst hr
      exact h r (by simp)
    · refine ih ?_ r hr
      intro s hs
      exact h s (List.mem_cons_of_mem r1 hs)

/-- For pairwise non-overlapping nonempty ranges, the source's normalization
(sort then coalesce) succeeds — the non-overlap assertion never fires — and
returns a permutation of the specification's coalescing of the sorted list. -/
theorem normalize_ranges_spec (ranges : List (Nat × Nat))
    (hne : ∀ r ∈ ranges, r.1 < r.2)
    (hdisj : ranges.Pairwise (fun a b => a.2 ≤ b.1 ∨ b.2 ≤ a.1)) :
    ∃ out, normalize_ranges ranges = some out ∧
      out.Perm (specCoalesce (ranges.mergeSort (fun a b => a.1 ≤ b.1))) := by
  have hperm : (ranges.mergeSort (fun a b => a.1 ≤ b.1)).Perm ranges :=
    List.mergeSort_perm ranges _
  have hne' : ∀ r ∈ ranges.mergeSort (fun a b => a.1 ≤ b.1), r.1 < r.2 :=
    fun r hr => hne r (hperm.mem_iff.mp hr)
  have hdisj' : (ranges.mergeSort (fun a b => a.1 ≤ b.1)).Pairwise
      (fun a b => a.2 ≤ b.1 ∨ b.2 ≤ a.1) :=
    (List.Perm.pairwise_iff (fun h => h.symm) hperm).mpr hdisj
  have hsorted : (ranges.mergeSort (fun a b => a.1 ≤ b.1)).Pairwise
      (fun a b : Nat × Nat => a.1 ≤ b.1) := by
    have := @List.sorted_mergeSort (Nat × Nat)
      (fun a b => decide (a.1 ≤ b.1))
      (fun a b c hab hbc => by
        simp only [decide_eq_true_eq] at hab hbc ⊢
        omega)
      (fun a b => by
        simp only [Bool.or_eq_true, decide_eq_true_eq]
        omega)
      ranges
    refine this.imp ?_
    intro a b hab
    simpa using hab
  have hchain : List.Chain' (fun a b : Nat × Nat => a.2 ≤ b.1)
      (ranges.mergeSort (fun a b => a.1 ≤ b.1)) := by
    refine List.Pairwise.chain' ?_
    refine (hsorted.and hdisj').imp_of_mem ?_
    intro a b ha hb hab
    have h1 := hne' a ha
    have h2 := hne' b hb
    rcases hab.2 with h | h
    · exact h
    · omega
  rcases hs : ranges.mergeSort (fun a b => a.1 ≤ b.1) with _ | ⟨x, t⟩
  · refine ⟨[], ?_, ?_⟩
    · simp only [normalize_ranges]
      rw [hs]
      rfl
    · rw [show specCoalesce ([] : List (Nat × Nat)) = [] from by simp [specCoalesce]]
  · rw [hs] at hchain hne'
    have hlen1 : t.length + 1 = (x :: t).length := by simp
    have htk : (x :: t).take (t.length + 1) = x :: t := by
      rw [hlen1, List.take_length]
    have hdp : (x :: t).drop (t.length + 1) = [] := by
      rw [hlen1, List.drop_length]
    obtain ⟨out, hrun, hperm2⟩ := coalesce_loop_spec t.length (x :: t)
      (by simp) (by rw [htk]; exact hchain) (by rw [htk]; exact hne')
    rw [htk, hdp, List.append_nil] at hperm2
    refine ⟨out, ?_, ?_⟩
    · simp only [normalize_ranges]
      rw [hs]
      simpa using hrun
    · exact hperm2

/-- When all endpoints are 4-byte aligned, the emission loop panics on no
assertion and records exactly one `fill_buffer(range, 0)` per range. -/
theorem fill_ranges_eq_map (buffer_id : Nat) (l : List (Nat × Nat))
    (h : ∀ r ∈ l, r.1 % 4 = 0 ∧ r.2 % 4 = 0) :
    fill_ranges buffer_id l =
      some (l.map (fun r => HalCommand.fill_buffer buffer_id r 0)) := by
  induction l with
  | nil => rfl
  | cons r rest ih =>
    have hr := h r (by simp)
    simp only [fill_ranges, if_pos hr.1, if_pos hr.2,
      ih (fun s hs => h s (List.mem_cons_of_mem r hs)), List.map_cons]

/-- C7: given per-buffer ranges drained from the memory-init tracker that are
pairwise non-overlapping, nonempty and 4-byte aligned at both endpoints,
`initialize_buffer_memory` sorts them by start, coalesces exactly the touching
ranges (it computes a permutation of the specification's left-to-right
coalescing of the sorted list), neither of its two assertions fires, and it
emits one `fill_buffer(range, 0)` per coalesced range, preceded by a COPY_DST
transition for the buffer (queue.rs:226-276). -/
theorem initialize_buffer_memory_normalizes
    (tracker : List (Nat × BufferUse)) (storage : List (Nat × Buffer))
    (buffer_id : Nat) (buffer : Buffer) (ranges : List (Nat × Nat))
    (hbuf : assocGet storage buffer_id = some buffer)
    (hraw : buffer.raw = true)
    (hne : ∀ r ∈ ranges, r.1 < r.2)
    (hdisj : ranges.Pairwise (fun a b => a.2 ≤ b.1 ∨ b.2 ≤ a.1))
    (halign : ∀ r ∈ ranges, r.1 % 4 = 0 ∧ r.2 % 4 = 0) :
    ∃ coalesced,
      normalize_ranges ranges = some coalesced ∧
      coalesced.Perm (specCoalesce (ranges.mergeSort (fun a b => a.1 ≤ b.1))) ∧
      (∀ r ∈ coalesced, r.1 % 4 = 0 ∧ r.2 % 4 = 0) ∧
      initialize_buffer_memory_buffer tracker storage buffer_id ranges =
        some (Except.ok
          ((change_replace_tracked tracker buffer_id BufferUse.COPY_DST).2,
            HalCommand.transition_buffers
                (change_replace_tracked tracker buffer_id BufferUse.COPY_DST).1 ::
              coalesced.map (fun r => HalCommand.fill_buffer buffer_id r 0))) := by
  obtain ⟨out, hnorm, hperm⟩ := normalize_ranges_spec ranges hne hdisj
  have halign' : ∀ r ∈ out, r.1 % 4 = 0 ∧ r.2 % 4 = 0 := by
    intro r hr
    refine specCoalesce_endpoints (fun n => n % 4 = 0)
      (ranges.mergeSort (fun a b => a.1 ≤ b.1)) ?_ r (hperm.mem_iff.mp hr)
    intro s hs
    exact halign s ((List.mergeSort_perm ranges _).mem_iff.mp hs)
  refine ⟨out, hnorm, hperm, halign', ?_⟩
  simp only [initialize_buffer_memory_buffer, hnorm, hbuf, hraw,
    fill_ranges_eq_map buffer_id out halign', if_true]

/-- Witness of `initialize_buffer_memory_normalizes` on ranges
`[(8, 12), (0, 4), (4, 8)]` for buffer id 1 backed by `bufEx`. -/
theorem initialize_buffer_memory_normalizes_witness :
    ∃ coalesced,
      normalize_ranges [(8, 12), (0, 4), (4, 8)] = some coalesced ∧
      coalesced.Perm (specCoalesce
        (([(8, 12), (0, 4), (4, 8)] : List (Nat × Nat)).mergeSort
          (fun a b => a.1 ≤ b.1))) ∧
      (∀ r ∈ coalesced, r.1 % 4 = 0 ∧ r.2 % 4 = 0) ∧
      initialize_buffer_memory_buffer [] [(1, bufEx)] 1 [(8, 12), (0, 4), (4, 8)] =
        some (Except.ok
          ((change_replace_tracked [] 1 BufferUse.COPY_DST).2,
            HalCommand.transition_buffers
                (change_replace_tracked [] 1 BufferUse.COPY_DST).1 ::
              coalesced.map (fun r => HalCommand.fill_buffer 1 r 0))) :=
  initialize_buffer_memory_normalizes [] [(1, bufEx)] 1 bufEx
    [(8, 12), (0, 4), (4, 8)] rfl rfl (by decide) (by decide) (by decide)

end Wgpu
